import Mathlib

/-!
Verification of the Azalea compiler front-end (preprocessor, lexer,
recursive-descent/Pratt parser, symbol-table duplicate checks) against its
natural-language specification.  Every definition is a shallow embedding of
the corresponding Rust item; side-effectful diagnostics are modelled by
recording, in the returned error value, the offset handed to the error
reporter.  Rust panics (`unwrap`/`expect`/`panic!`-macro calls, out-of-bounds
indexing) are modelled by an explicit `crash`-style result; the
source-language loops that can run forever are modelled with `Option`
(`none` = divergence) or an explicit fuel parameter that the finiteness
arguments instantiate.
-/

namespace Azalea

/-! ### Character classification (Rust `char` methods)

The Rust code uses the Unicode-aware classifiers `char::is_alphabetic`,
`char::is_numeric`, `char::is_alphanumeric` and `char::is_whitespace`.
The definitions below reproduce them exactly for every code point below
U+0100 (ASCII plus Latin-1 supplement), which covers every character of
every input considered in this development; `is_ascii` and
`is_ascii_punctuation` are exact for all characters. -/

/-- Rust `char::is_alphabetic` (Unicode `Alphabetic`), exact below U+0100:
ASCII letters plus `ª`, `µ`, `º` and the Latin-1 letters `À`..`ÿ` except
`×` and `÷`. -/
def rustIsAlphabetic (c : Char) : Bool :=
  c.isAlpha || c.toNat = 0xAA || c.toNat = 0xB5 || c.toNat = 0xBA ||
    (0xC0 ≤ c.toNat && c.toNat ≤ 0xFF && c.toNat ≠ 0xD7 && c.toNat ≠ 0xF7)

/-- Rust `char::is_numeric` (Unicode `Nd`/`Nl`/`No`), exact below U+0100:
ASCII digits plus `²`, `³`, `¹`, `¼`, `½`, `¾`. -/
def rustIsNumeric (c : Char) : Bool :=
  c.isDigit || c.toNat = 0xB2 || c.toNat = 0xB3 || c.toNat = 0xB9 ||
    (0xBC ≤ c.toNat && c.toNat ≤ 0xBE)

/-- Rust `char::is_alphanumeric` = `is_alphabetic || is_numeric`. -/
def rustIsAlphanumeric (c : Char) : Bool :=
  rustIsAlphabetic c || rustIsNumeric c

/-- Rust `char::is_whitespace` (Unicode `White_Space`), exact below U+0100. -/
def rustIsWhitespace (c : Char) : Bool :=
  c.toNat = 0x09 || c.toNat = 0x0A || c.toNat = 0x0B || c.toNat = 0x0C ||
    c.toNat = 0x0D || c.toNat = 0x20 || c.toNat = 0x85 || c.toNat = 0xA0

/-- Rust `char::is_ascii`. -/
def rustIsAscii (c : Char) : Bool :=
  c.toNat ≤ 0x7F

/-- Rust `char::is_ascii_punctuation`:
`!..=/`, `:..=@`, `[..=‵`&#96;`‵`, `\x7b..=~` in ASCII. -/
def rustIsAsciiPunctuation (c : Char) : Bool :=
  (0x21 ≤ c.toNat && c.toNat ≤ 0x2F) || (0x3A ≤ c.toNat && c.toNat ≤ 0x40) ||
    (0x5B ≤ c.toNat && c.toNat ≤ 0x60) || (0x7B ≤ c.toNat && c.toNat ≤ 0x7E)

/-- Rust `str::trim` on a character list: strip Unicode whitespace from both
ends. -/
def rustTrim (l : List Char) : List Char :=
  ((l.dropWhile rustIsWhitespace).reverse.dropWhile rustIsWhitespace).reverse

/-! ### Preprocessor (`preprocessor.rs`)

`Preprocessor` carries the source text and its path.  Errors record the
path stored in `PreprocessorError::Failed(path)` together with the byte
offset passed to the pretty error reporter just before the failure is
returned (`ErrorReporter::missing_terminater` / `ErrorReporter::bad_character`). -/

structure Preprocessor where
  content : String
  path : String
deriving DecidableEq

/-- `PreprocessorError::Failed(path)`, extended with the offset handed to the
diagnostic reporter at the failure site. -/
inductive PreprocessorError where
  | Failed (path : String) (diagOffset : Nat)
deriving DecidableEq

/-- The inner skip of `remove_singleline_comments`:
`while chars.peek() != Some(&'\n') \x7b chars.next(); \x7d` followed by the
`chars.next()` that consumes the newline.  Returns the iterator remainder
after the newline; `none` models the infinite loop the Rust code enters when
the comment reaches end of input without a newline. -/
def skipToNewline : List Char → Option (List Char)
  | [] => none
  | c :: r => if c = '\n' then some r else skipToNewline r

theorem skipToNewline_length_lt :
    ∀ {l r : List Char}, skipToNewline l = some r → r.length < l.length := by
  intro l
  induction l with
  | nil => intro r h; simp [skipToNewline] at h
  | cons c cs ih =>
    intro r h
    by_cases hc : c = '\n'
    · simp [skipToNewline, hc] at h
      simp [← h, List.length_cons]
    · simp [skipToNewline, hc] at h
      have := ih h
      simp [List.length_cons]
      omega

/-- The character-level loop of `Preprocessor::remove_singleline_comments`.
On `//` it skips to the next newline, keeps the newline, and continues after
it; every other character is pushed through.  `none` models the
non-termination on a `//` comment that reaches end of input. -/
def rmSingleGo (l : List Char) : Option (List Char) :=
  match l with
  | [] => some []
  | c :: rest =>
    if c = '/' ∧ rest.head? = some '/' then
      match h : skipToNewline rest with
      | none => none
      | some r => (rmSingleGo r).map (fun t => '\n' :: t)
    else
      (rmSingleGo rest).map (fun t => c :: t)
termination_by l.length
decreasing_by
  · exact Nat.lt_succ_of_lt (skipToNewline_length_lt h)
  · simp

/-- `Preprocessor::remove_singleline_comments` (consumes and returns the
preprocessor; `none` models non-termination). -/
def removeSinglelineComments (p : Preprocessor) : Option Preprocessor :=
  (rmSingleGo p.content.data).map (fun l => { p with content := String.mk l })

/-- The inner skip loop of `Preprocessor::remove_multiline_comment`:
`while temp_chr != Some('*') && chars.peek() != Some(&'/')`.  Arguments are
the current `temp_chr`, the iterator remainder and `offset_in_file`; the
result is the whitespace kept from the comment body, the iterator remainder
at loop exit and the updated offset.  `none` is the
`missing-terminator` early return (the caller reports its own
`comment_offset`). -/
def skipMultiKept (temp : Option Char) : List Char :=
  match temp with
  | some t => if rustIsWhitespace t then [t] else []
  | none => []

def skipMulti (temp : Option Char) (rest : List Char) (o : Nat) :
    Option (List Char × List Char × Nat) :=
  if temp ≠ some '*' ∧ rest.head? ≠ some '/' then
    match rest with
    | [] => none
    | c :: r =>
      (skipMulti (some c) r (o + 1)).map
        (fun x => (skipMultiKept temp ++ x.1, x.2.1, x.2.2))
  else
    some ([], rest, o)

theorem skipMulti_exit {temp : Option Char} {rest : List Char} {o : Nat}
    (h : ¬(temp ≠ some '*' ∧ rest.head? ≠ some '/')) :
    skipMulti temp rest o = some ([], rest, o) := by
  rw [skipMulti.eq_def, if_neg h]

theorem skipMulti_nil {temp : Option Char} {o : Nat}
    (h : temp ≠ some '*' ∧ ([] : List Char).head? ≠ some '/') :
    skipMulti temp [] o = none := by
  rw [skipMulti.eq_def, if_pos h]

theorem skipMulti_step {temp : Option Char} {c : Char} {r : List Char} {o : Nat}
    (h : temp ≠ some '*' ∧ (c :: r).head? ≠ some '/') :
    skipMulti temp (c :: r) o =
      (skipMulti (some c) r (o + 1)).map
        (fun x => (skipMultiKept temp ++ x.1, x.2.1, x.2.2)) := by
  rw [skipMulti.eq_def, if_pos h]

theorem skipMultiKept_length_le (temp : Option Char) :
    (skipMultiKept temp).length ≤ 1 := by
  cases temp with
  | none => simp [skipMultiKept]
  | some t => by_cases hw : rustIsWhitespace t <;> simp [skipMultiKept, hw]

theorem skipMulti_spec :
    ∀ (l : List Char) (temp : Option Char) (o : Nat)
      {ws rem : List Char} {o' : Nat},
      skipMulti temp l o = some (ws, rem, o') →
      ws.length + rem.length ≤ l.length ∧ ∃ k, rem = l.drop k := by
  intro l
  induction l with
  | nil =>
    intro temp o ws rem o' h
    by_cases hc : temp ≠ some '*' ∧ ([] : List Char).head? ≠ some '/'
    · rw [skipMulti_nil hc] at h
      exact absurd h (by simp)
    · rw [skipMulti_exit hc] at h
      simp only [Option.some.injEq, Prod.mk.injEq] at h
      obtain ⟨rfl, rfl, rfl⟩ := h
      exact ⟨by simp, 0, rfl⟩
  | cons c r ih =>
    intro temp o ws rem o' h
    by_cases hc : temp ≠ some '*' ∧ (c :: r).head? ≠ some '/'
    · rw [skipMulti_step hc] at h
      cases hrec : skipMulti (some c) r (o + 1) with
      | none => rw [hrec] at h; exact absurd h (by simp)
      | some x =>
        obtain ⟨ws1, rem1, o1⟩ := x
        rw [hrec] at h
        simp only [Option.map_some', Option.some.injEq, Prod.mk.injEq] at h
        obtain ⟨rfl, rfl, rfl⟩ := h
        obtain ⟨ih1, k, ihk⟩ := ih (some c) (o + 1) hrec
        have hkept := skipMultiKept_length_le temp
        refine ⟨by simp only [List.length_append, List.length_cons]; omega,
          k + 1, ?_⟩
        rw [ihk]
        simp [List.drop_succ_cons]
    · rw [skipMulti_exit hc] at h
      simp only [Option.some.injEq, Prod.mk.injEq] at h
      obtain ⟨rfl, rfl, rfl⟩ := h
      exact ⟨by simp, 0, rfl⟩

/-- The outer loop of `Preprocessor::remove_multiline_comment`.  `o` is
`offset_in_file` (number of `offset_in_file += 1` increments executed so
far).  On `/*` it consumes the `*`, records `comment_offset`, runs the inner
skip loop, consumes one further character, and continues; other characters
are pushed through.  An `Except.error` carries the path (unknown here, added
by the wrapper) as the reported `comment_offset`. -/
def rmMultiGo (l : List Char) (o : Nat) : Except Nat (List Char) :=
  match l with
  | [] => Except.ok []
  | c :: rest =>
    let o1 := o + 1
    if c = '/' ∧ rest.head? = some '*' then
      let o2 := o1 + 1
      match hsk : skipMulti rest.tail.head? rest.tail.tail o2 with
      | none => Except.error o2
      | some (ws, rem, o3) =>
        match rmMultiGo rem.tail (o3 + 1) with
        | Except.error e => Except.error e
        | Except.ok res => Except.ok (ws ++ res)
    else
      match rmMultiGo rest o1 with
      | Except.error e => Except.error e
      | Except.ok res => Except.ok (c :: res)
termination_by l.length
decreasing_by
  · obtain ⟨hlen, k, hk⟩ := skipMulti_spec _ _ _ hsk
    have h3 : rem.tail.length ≤ rem.length := by cases rem <;> simp
    have h1 : rem.length ≤ r.tail.tail.length := by
      rw [hk]; simp only [List.length_drop]; omega
    have h2 : r.tail.tail.length ≤ r.length := by
      cases r with
      | nil => simp
      | cons a as =>
        cases as with
        | nil => simp
        | cons b bs => simp only [List.tail_cons, List.length_cons]; omega
    simp only [List.length_cons]
    omega
  · simp

/-- `Preprocessor::remove_multiline_comment`. -/
def removeMultilineComment (p : Preprocessor) :
    Except PreprocessorError Preprocessor :=
  match rmMultiGo p.content.data 0 with
  | Except.error off => Except.error (PreprocessorError.Failed p.path off)
  | Except.ok l => Except.ok { p with content := String.mk l }

/-- `VALID_PUNC` of `Preprocessor::normalize_to_ascii`. -/
def validPunc (c : Char) : Bool :=
  [';', ':', '_', ',', '(', ')', '\x7b', '\x7d', '+', '-', '*', '/', '%',
    '&', '|', '=', '<', '>', '!'].contains c

/-- `VALID_CONTROL` of `Preprocessor::normalize_to_ascii`. -/
def validControl (c : Char) : Bool :=
  ['\n', '\t', '\r'].contains c

/-- The scan of `normalize_to_ascii`: first character that is neither valid
control, Rust-alphanumeric, Rust-whitespace nor valid punctuation, together
with its 0-based offset. -/
def findBadChar : List Char → Nat → Option (Nat × Char)
  | [], _ => none
  | c :: r, i =>
    if ¬validControl c ∧ ¬rustIsAlphanumeric c ∧ ¬rustIsWhitespace c ∧
        ¬validPunc c then
      some (i, c)
    else
      findBadChar r (i + 1)

/-- `Preprocessor::normalize_to_ascii`: fails with `bad-character` at the
first offending offset, otherwise returns the preprocessor unchanged. -/
def normalizeToAscii (p : Preprocessor) :
    Except PreprocessorError Preprocessor :=
  match findBadChar p.content.data 0 with
  | some (i, _) => Except.error (PreprocessorError.Failed p.path i)
  | none => Except.ok p

/-- `Preprocessor::get_cleaned_sources`. -/
def getCleanedSources (p : Preprocessor) : String :=
  p.content

/-! ### General preprocessor lemmas -/

theorem rmSingleGo_length_le :
    ∀ (l : List Char) {r : List Char}, rmSingleGo l = some r →
      r.length ≤ l.length := by
  intro l
  induction l using rmSingleGo.induct with
  | case1 =>
    intro r h
    simp [rmSingleGo] at h
    simp [← h]
  | case2 c rest hc hsk =>
    intro r h
    rw [rmSingleGo.eq_def] at h
    dsimp only at h
    rw [if_pos hc] at h
    split at h
    · exact absurd h (by simp)
    · rename_i rr hsk2
      rw [hsk2] at hsk
      exact absurd hsk (by simp)
  | case3 c rest hc rr hsk ih =>
    intro r h
    rw [rmSingleGo.eq_def] at h
    dsimp only at h
    rw [if_pos hc] at h
    split at h
    · rename_i hsk2
      rw [hsk2] at hsk
      exact absurd hsk (by simp)
    · rename_i rr2 hsk2
      rw [hsk2] at hsk
      injection hsk with hsk3
      subst hsk3
      simp only [Option.map_eq_some'] at h
      obtain ⟨t, ht, rfl⟩ := h
      have h1 := ih ht
      have h2 := skipToNewline_length_lt hsk2
      simp only [List.length_cons]
      omega
  | case4 c rest hc ih =>
    intro r h
    rw [rmSingleGo.eq_def] at h
    dsimp only at h
    rw [if_neg hc] at h
    simp only [Option.map_eq_some'] at h
    obtain ⟨t, ht, rfl⟩ := h
    have h1 := ih ht
    simp only [List.length_cons]
    omega

/-- A double slash occurs nowhere in `l`. -/
def NoDoubleSlash (l : List Char) : Prop :=
  ∀ i, ¬(l.get? i = some '/' ∧ l.get? (i + 1) = some '/')

theorem rmSingleGo_no_comment :
    ∀ (l : List Char), NoDoubleSlash l → rmSingleGo l = some l := by
  intro l
  induction l with
  | nil => intro _; simp [rmSingleGo]
  | cons c rest ih =>
    intro hno
    have hc : ¬(c = '/' ∧ rest.head? = some '/') := by
      intro ⟨h1, h2⟩
      exact hno 0 ⟨by simp [h1], by cases rest <;> simp_all⟩
    rw [rmSingleGo.eq_def]
    dsimp only
    rw [if_neg hc, ih (fun i => hno (i + 1))]
    rfl

theorem rmMultiGo_nil (o : Nat) : rmMultiGo [] o = Except.ok [] := by
  rw [rmMultiGo.eq_def]

theorem rmMultiGo_comment {c : Char} {r : List Char} {o : Nat}
    (hc : c = '/' ∧ r.head? = some '*') :
    rmMultiGo (c :: r) o =
      match skipMulti r.tail.head? r.tail.tail (o + 1 + 1) with
      | none => Except.error (o + 1 + 1)
      | some (ws, rem, o3) =>
        match rmMultiGo rem.tail (o3 + 1) with
        | Except.error e => Except.error e
        | Except.ok res => Except.ok (ws ++ res) := by
  rw [rmMultiGo.eq_def]
  dsimp only
  rw [if_pos hc]
  cases hx : skipMulti r.tail.head? r.tail.tail (o + 1 + 1) with
  | none => simp only [hx]
  | some x => obtain ⟨ws, rem, o3⟩ := x; simp only [hx]

theorem rmMultiGo_plain {c : Char} {r : List Char} {o : Nat}
    (hc : ¬(c = '/' ∧ r.head? = some '*')) :
    rmMultiGo (c :: r) o =
      match rmMultiGo r (o + 1) with
      | Except.error e => Except.error e
      | Except.ok res => Except.ok (c :: res) := by
  rw [rmMultiGo.eq_def]
  dsimp only
  rw [if_neg hc]

theorem tail_tail_eq_drop (l : List Char) : l.tail.tail = l.drop 2 := by
  cases l with
  | nil => simp
  | cons a as => cases as <;> simp

theorem rmMultiGo_length_le :
    ∀ (l : List Char) (o : Nat) {r : List Char},
      rmMultiGo l o = Except.ok r → r.length ≤ l.length := by
  intro l o
  induction l, o using rmMultiGo.induct with
  | case1 o =>
    intro r h
    rw [rmMultiGo_nil] at h
    injection h with h1
    simp [← h1]
  | case2 =>
    rename_i o c r o1 hc o2 hsk
    intro rr h
    rw [rmMultiGo_comment hc] at h
    rw [hsk] at h
    dsimp only at h
    exact absurd h (by simp)
  | case3 =>
    rename_i o c r o1 hc o2 ws rem o3 hsk e hrec ih
    intro rr h
    rw [rmMultiGo_comment hc] at h
    rw [hsk] at h
    dsimp only at h
    rw [hrec] at h
    exact absurd h (by simp)
  | case4 =>
    rename_i o c r o1 hc o2 ws rem o3 hsk res hrec ih
    intro rr h
    rw [rmMultiGo_comment hc] at h
    rw [hsk] at h
    dsimp only at h
    rw [hrec] at h
    injection h with h1
    obtain ⟨hlen, k, hk⟩ := skipMulti_spec _ _ _ hsk
    have h2 := ih hrec
    have h3 : rem.tail.length ≤ rem.length := by cases rem <;> simp
    have h4 : r.tail.tail.length ≤ r.length := by
      rw [tail_tail_eq_drop]; simp only [List.length_drop]; omega
    simp only [← h1, List.length_append, List.length_cons]
    omega
  | case5 =>
    rename_i o c r o1 hc e hrec ih
    intro rr h
    rw [rmMultiGo_plain hc] at h
    rw [hrec] at h
    exact absurd h (by simp)
  | case6 =>
    rename_i o c r o1 hc res hrec ih
    intro rr h
    rw [rmMultiGo_plain hc] at h
    rw [hrec] at h
    injection h with h1
    have h2 := ih hrec
    simp only [← h1, List.length_cons]
    omega

/-- Position `i` starts a multi-line comment opener. -/
def openerAt (l : List Char) (i : Nat) : Prop :=
  l.get? i = some '/' ∧ l.get? (i + 1) = some '*'

/-- Position `i` starts a multi-line comment closer. -/
def closerAt (l : List Char) (i : Nat) : Prop :=
  l.get? i = some '*' ∧ l.get? (i + 1) = some '/'

/-- Every multi-line comment opener is closed later in the input. -/
def CommentsClosed (l : List Char) : Prop :=
  ∀ i, openerAt l i → ∃ j, i + 2 ≤ j ∧ closerAt l j

/-- No multi-line comment opener occurs in the input. -/
def NoOpener (l : List Char) : Prop :=
  ∀ i, ¬openerAt l i

theorem rmMultiGo_no_comment :
    ∀ (l : List Char) (o : Nat), NoOpener l → rmMultiGo l o = Except.ok l := by
  intro l
  induction l with
  | nil => intro o _; exact rmMultiGo_nil o
  | cons c rest ih =>
    intro o hno
    have hc : ¬(c = '/' ∧ rest.head? = some '*') := by
      intro ⟨h1, h2⟩
      exact hno 0 ⟨by simp [h1], by cases rest <;> simp_all [openerAt]⟩
    rw [rmMultiGo_plain hc, ih (o + 1) (fun i hi => hno (i + 1) (by
      obtain ⟨ha, hb⟩ := hi
      exact ⟨by simpa using ha, by simpa using hb⟩))]

theorem skipMulti_ne_none_of_star :
    ∀ (l : List Char) (t : Char) (o : Nat), '*' ∈ t :: l →
      skipMulti (some t) l o ≠ none := by
  intro l
  induction l with
  | nil =>
    intro t o hmem
    have ht : t = '*' := by
      have h1 := hmem
      simp only [List.mem_singleton] at h1
      exact h1.symm
    rw [skipMulti_exit (by simp [ht])]
    simp
  | cons c r ih =>
    intro t o hmem
    by_cases hcond : (some t : Option Char) ≠ some '*' ∧
        (c :: r).head? ≠ some '/'
    · rw [skipMulti_step hcond]
      have ht : t ≠ '*' := by
        intro hh
        exact hcond.1 (by simp [hh])
      have hmem2 : '*' ∈ c :: r := by
        rcases List.mem_cons.mp hmem with h1 | h1
        · exact absurd h1.symm ht
        · exact h1
      have := ih c (o + 1) hmem2
      intro hcontra
      rw [Option.map_eq_none'] at hcontra
      exact this hcontra
    · rw [skipMulti_exit hcond]
      simp

theorem commentsClosed_drop {l : List Char} (h : CommentsClosed l) (k : Nat) :
    CommentsClosed (l.drop k) := by
  intro i hi
  obtain ⟨ha, hb⟩ := hi
  rw [List.get?_drop] at ha hb
  obtain ⟨j, hj2, hj⟩ := h (k + i) ⟨ha, by rw [Nat.add_assoc]; exact hb⟩
  refine ⟨j - k, by omega, ?_, ?_⟩
  · rw [List.get?_drop]
    have : k + (j - k) = j := by omega
    rw [this]
    exact hj.1
  · rw [List.get?_drop]
    have : k + (j - k + 1) = j + 1 := by omega
    rw [this]
    exact hj.2

theorem rmMultiGo_ok_of_closed :
    ∀ (l : List Char) (o : Nat), CommentsClosed l →
      ∃ res, rmMultiGo l o = Except.ok res := by
  intro l o
  induction l, o using rmMultiGo.induct with
  | case1 o => intro _; exact ⟨[], rmMultiGo_nil o⟩
  | case2 =>
    rename_i o c r o1 hc o2 hsk
    intro hclosed
    exfalso
    obtain ⟨j, hj2, hcl⟩ := hclosed 0 ⟨by simp [hc.1], by
      obtain ⟨h1, h2⟩ := hc
      cases r with
      | nil => simp at h2
      | cons a as => simpa using h2⟩
    have hstar : '*' ∈ r.tail := by
      obtain ⟨hj, _⟩ := hcl
      have hj' : j = (j - 2) + 1 + 1 := by omega
      rw [hj'] at hj
      have h3 : r.tail.get? (j - 2) = some '*' := by
        cases r with
        | nil =>
          obtain ⟨_, h2⟩ := hc
          simp at h2
        | cons a as => simpa using hj
      exact List.get?_mem h3
    cases htail : r.tail with
    | nil => rw [htail] at hstar; simp at hstar
    | cons t r2 =>
      rw [htail] at hsk hstar
      exact skipMulti_ne_none_of_star r2 t (o + 1 + 1) hstar (by simpa using hsk)
  | case3 =>
    rename_i o c r o1 hc o2 ws rem o3 hsk e hrec ih
    intro hclosed
    exfalso
    obtain ⟨_, k, hk⟩ := skipMulti_spec _ _ _ hsk
    have hdrop : rem.tail = (c :: r).drop (2 + k + 1 + 1) := by
      rw [hk, tail_tail_eq_drop, List.drop_drop, List.tail_drop,
        List.drop_succ_cons]
    have hclosed2 : CommentsClosed rem.tail := by
      rw [hdrop]; exact commentsClosed_drop hclosed _
    obtain ⟨res, hres⟩ := ih hclosed2
    rw [hres] at hrec
    exact absurd hrec (by simp)
  | case4 =>
    rename_i o c r o1 hc o2 ws rem o3 hsk res hrec ih
    intro hclosed
    refine ⟨ws ++ res, ?_⟩
    rw [rmMultiGo_comment hc, hsk]
    dsimp only
    rw [hrec]
  | case5 =>
    rename_i o c r o1 hc e hrec ih
    intro hclosed
    exfalso
    have hclosed2 : CommentsClosed r := by
      have : r = (c :: r).drop 1 := by simp
      rw [this]; exact commentsClosed_drop hclosed 1
    obtain ⟨res, hres⟩ := ih hclosed2
    rw [hres] at hrec
    exact absurd hrec (by simp)
  | case6 =>
    rename_i o c r o1 hc res hrec ih
    intro hclosed
    refine ⟨c :: res, ?_⟩
    rw [rmMultiGo_plain hc, hrec]

/-- A character the `normalize_to_ascii` scan accepts. -/
def acceptedChar (c : Char) : Prop :=
  validControl c = true ∨ rustIsAlphanumeric c = true ∨
    rustIsWhitespace c = true ∨ validPunc c = true

instance (c : Char) : Decidable (acceptedChar c) := by
  unfold acceptedChar
  infer_instance

theorem findBadChar_none_iff :
    ∀ (l : List Char) (i : Nat),
      findBadChar l i = none ↔ ∀ c ∈ l, acceptedChar c := by
  intro l
  induction l with
  | nil => intro i; simp [findBadChar]
  | cons c rest ih =>
    intro i
    by_cases hbad : ¬validControl c ∧ ¬rustIsAlphanumeric c ∧
        ¬rustIsWhitespace c ∧ ¬validPunc c
    · rw [findBadChar, if_pos hbad]
      simp only [List.mem_cons]
      constructor
      · intro h; exact absurd h (by simp)
      · intro h
        obtain ⟨h1, h2, h3, h4⟩ := hbad
        rcases h c (Or.inl rfl) with h5 | h5 | h5 | h5 <;> simp_all
    · rw [findBadChar, if_neg hbad]
      rw [ih (i + 1)]
      constructor
      · intro h d hd
        rcases List.mem_cons.mp hd with rfl | hd2
        · unfold acceptedChar
          by_contra hcon
          push_neg at hcon
          exact hbad (by simp_all)
        · exact h d hd2
      · intro h d hd
        exact h d (List.mem_cons_of_mem c hd)

theorem normalizeToAscii_ok_iff (p : Preprocessor) :
    normalizeToAscii p = Except.ok p ↔
      ∀ c ∈ p.content.data, acceptedChar c := by
  unfold normalizeToAscii
  cases h : findBadChar p.content.data 0 with
  | none =>
    simp only
    rw [← findBadChar_none_iff p.content.data 0]
    simp [h]
  | some x =>
    obtain ⟨i, c⟩ := x
    simp only
    rw [← findBadChar_none_iff p.content.data 0]
    simp [h]

/-! ### Span and token model (`span.rs`, `token.rs`) -/

/-- `SpanPoint \x7b line_num, col_num, val \x7d`. -/
structure SpanPoint where
  lineNum : Nat
  colNum : Nat
  val : Char
deriving DecidableEq

/-- The construction loop of `Span::new`: one `SpanPoint` per ASCII
character, newline advancing the line and resetting the column to 1. -/
def buildSpan : List Char → Nat → Nat → List SpanPoint
  | [], _, _ => []
  | ch :: rest, lineNum, colNum =>
    if rustIsAscii ch then
      SpanPoint.mk lineNum colNum ch ::
        (if ch = '\n' then buildSpan rest (lineNum + 1) 1
         else buildSpan rest lineNum (colNum + 1))
    else
      buildSpan rest lineNum colNum

/-- `Span::new` starting at `(1, 1)`; a `Span` is its vector of points,
indexed by `List.get?` (out of range models the `Vec` indexing panic). -/
def Span.new (s : String) : List SpanPoint :=
  buildSpan s.data 1 1

/-- `TokenKind` (exact variant set, including the source's `TQualifer`
spelling). -/
inductive TokenKind where
  | Ident | IntTy | FloatTy | TextTy | BoolTy | TQualifer | Semicolon
  | Assign | Plus | Minus | Div | Mul | NumLit | BoolLit | FloatLit
  | Lt | Lte | Gt | Gte | Eq | NEq | Not | RecordDot | ExRange
  | LParn | RParn | LBracket | RBracket | LSBracket | RSBracket
  | Sep | FnDef | RetArrow | StructKw | ChoiceKw | MainKw | AsKw
  | AndKw | OrKw | InKw | LetKw | IfKw | ElifKw | ElseKw | ForKw
  | WhileKw | EOF
deriving DecidableEq

/-- The keyword table of `TokenKind::is_reserved`. -/
def reservedLookup (s : String) : Option TokenKind :=
  if s = "float" then some TokenKind.FloatTy
  else if s = "int" then some TokenKind.IntTy
  else if s = "text" then some TokenKind.TextTy
  else if s = "bool" then some TokenKind.BoolTy
  else if s = "structure" then some TokenKind.StructKw
  else if s = "choice" then some TokenKind.ChoiceKw
  else if s = "main" then some TokenKind.MainKw
  else if s = "as" then some TokenKind.AsKw
  else if s = "or" then some TokenKind.OrKw
  else if s = "and" then some TokenKind.AndKw
  else if s = "in" then some TokenKind.InKw
  else if s = "let" then some TokenKind.LetKw
  else if s = "if" then some TokenKind.IfKw
  else if s = "elif" then some TokenKind.ElifKw
  else if s = "else" then some TokenKind.ElseKw
  else if s = "while" then some TokenKind.WhileKw
  else if s = "for" then some TokenKind.ForKw
  else if s = "true" then some TokenKind.BoolLit
  else if s = "false" then some TokenKind.BoolLit
  else none

/-- `TokenKind::refined_or_ident`: refined kind with `reserved = true`, or
`Ident` with `reserved = false`. -/
def refinedOrIdent (s : String) : TokenKind × Bool :=
  match reservedLookup s with
  | some k => (k, true)
  | none => (TokenKind.Ident, false)

/-- `Token`: raw content, kind, start/end span points, file index at
emission, reserved flag. -/
structure Token where
  rawContent : String
  kind : TokenKind
  spanStart : SpanPoint
  spanEnd : SpanPoint
  fileIndex : Nat
  reserved : Bool
deriving DecidableEq

/-- `TokenHint`. -/
inductive TokenHint where
  | Undetermined | IdentOrKeyword | Number
deriving DecidableEq

/-! ### Lexer (`lexer.rs`)

The `Lexer` state mirrors the Rust struct; `content` is the character list
of the source (byte length and character count coincide on the ASCII inputs
considered).  `LexOut.crash` models the `expect`/indexing panics,
`LexOut.spent` is fuel exhaustion of the embedding (never reached when the
fuel exceeds the number of loop iterations). -/

structure LexerSt where
  currentTok : List Char
  currentPos : List SpanPoint
  sourcePath : String
  content : List Char
  index : Nat
  eof : Bool
  hint : TokenHint
  foundError : Bool
deriving DecidableEq

/-- `Lexer::new`. -/
def Lexer.new (path content : String) : LexerSt :=
  ⟨[], Span.new content, path, content.data, 0, false,
    TokenHint.Undetermined, false⟩

/-- `Lexer::incre_file_index_by`: advance and clamp, setting `eof` past the
end. -/
def LexerSt.increBy (st : LexerSt) (n : Nat) : LexerSt :=
  let i := st.index + n
  if i ≥ st.content.length then
    { st with index := st.content.length, eof := true }
  else
    { st with index := i }

/-- `Lexer::peek`: character at `index + 1`. -/
def LexerSt.peekf (st : LexerSt) : Option Char :=
  st.content.get? (st.index + 1)

/-- `Lexer::peek_previous`: character at `index - 1` (saturating). -/
def LexerSt.peekPrevious (st : LexerSt) : Option Char :=
  st.content.get? (st.index - 1)

/-- `Lexer::peek_current`: character at `index`; a non-ASCII character
reports `unsupported-char`, sets the error flag and yields `none`. -/
def LexerSt.peekCurrent (st : LexerSt) : LexerSt × Option Char :=
  match st.content.get? st.index with
  | none => (st, none)
  | some c =>
    if ¬rustIsAscii c then ({ st with foundError := true }, none)
    else (st, some c)

/-- `Lexer::get_span_start_and_end_with_offset` (`none` models the `Vec`
index panic). -/
def LexerSt.spanStartEnd (st : LexerSt) (offset : Nat) :
    Option (SpanPoint × SpanPoint) :=
  match st.currentPos.get? (st.index - offset),
      st.currentPos.get? (st.index - 1) with
  | some a, some b => some (a, b)
  | _, _ => none

/-- `Lexer::consume_one_chars` (`none` models a span-index panic). -/
def consumeOneChars (st : LexerSt) (ch : Char) (kind : TokenKind) :
    Option (LexerSt × Token) :=
  let st1 := st.increBy 1
  (st1.spanStartEnd 1).map fun x =>
    (st1, ⟨String.mk [ch], kind, x.1, x.2, st1.index, false⟩)

/-- `Lexer::consume_one_or_two_chars` (`none` models the peek-past-EOF
`expect` panic or a span-index panic). -/
def consumeOneOrTwoChars (st : LexerSt) (ch1 ch2 : Char)
    (kind1 kind2 : TokenKind) : Option (LexerSt × Token) :=
  match st.peekf with
  | none => none
  | some nextChar =>
    if nextChar = ch2 then
      let st2 := st.increBy 2
      (st2.spanStartEnd 2).map fun x =>
        (st2, ⟨String.mk [ch1, ch2], kind2, x.1, x.2, st2.index, false⟩)
    else
      let st1 := st.increBy 1
      (st1.spanStartEnd 1).map fun x =>
        (st1, ⟨String.mk [ch1], kind1, x.1, x.2, st1.index, false⟩)

/-- `Lexer::consume_num_or_float_lit` (token built from the accumulator;
resets hint and clears the accumulator). -/
def consumeNumOrFloat (st : LexerSt) : Option (LexerSt × Token) :=
  let kind :=
    if st.currentTok.contains '.' then TokenKind.FloatLit
    else TokenKind.NumLit
  (st.spanStartEnd st.currentTok.length).map fun x =>
    ({ st with hint := TokenHint.Undetermined, currentTok := [] },
      ⟨String.mk st.currentTok, kind, x.1, x.2, st.index, false⟩)

/-- `Lexer::consume_ident_or_reserved`. -/
def consumeIdentOrReserved (st : LexerSt) : Option (LexerSt × Token) :=
  let kr := refinedOrIdent (String.mk st.currentTok)
  (st.spanStartEnd st.currentTok.length).map fun x =>
    ({ st with hint := TokenHint.Undetermined, currentTok := [] },
      ⟨String.mk st.currentTok, kr.1, x.1, x.2, st.index, kr.2⟩)

/-- Result of `Lexer::lex_punctuation`: a token (`Some`), a reported error
with no token (`None` in Rust), or a panic. -/
inductive LexStep where
  | emit (st : LexerSt) (tok : Token)
  | skip (st : LexerSt)
  | crash

/-- Lift the `Option` result of the consume helpers (panic on `none`). -/
def liftTok : Option (LexerSt × Token) → LexStep
  | none => LexStep.crash
  | some x => LexStep.emit x.1 x.2

/-- `Lexer::lex_punctuation`. -/
def lexPunctuation (st : LexerSt) : LexStep :=
  match st.peekCurrent with
  | (st1, none) => LexStep.skip (st1.increBy 1)
  | (st1, some character) =>
    if character = '+' then liftTok (consumeOneChars st1 '+' TokenKind.Plus)
    else if character = '*' then liftTok (consumeOneChars st1 '*' TokenKind.Mul)
    else if character = '/' then liftTok (consumeOneChars st1 '/' TokenKind.Div)
    else if character = '-' then
      liftTok (consumeOneOrTwoChars st1 '-' '>' TokenKind.Minus TokenKind.RetArrow)
    else if character = '>' then
      liftTok (consumeOneOrTwoChars st1 '>' '=' TokenKind.Gt TokenKind.Gte)
    else if character = '=' then
      liftTok (consumeOneOrTwoChars st1 '=' '=' TokenKind.FnDef TokenKind.Eq)
    else if character = ';' then
      liftTok (consumeOneChars st1 ';' TokenKind.Semicolon)
    else if character = '(' then liftTok (consumeOneChars st1 '(' TokenKind.LParn)
    else if character = ')' then liftTok (consumeOneChars st1 ')' TokenKind.RParn)
    else if character = '\x7b' then
      liftTok (consumeOneChars st1 '\x7b' TokenKind.LBracket)
    else if character = '\x7d' then
      liftTok (consumeOneChars st1 '\x7d' TokenKind.RBracket)
    else if character = ',' then liftTok (consumeOneChars st1 ',' TokenKind.Sep)
    else if character = '<' then
      match st1.peekf with
      | none => LexStep.crash
      | some nextChar =>
        if nextChar = '-' then
          let st2 := st1.increBy 2
          match st2.spanStartEnd 2 with
          | none => LexStep.crash
          | some x => LexStep.emit st2 ⟨"<-", TokenKind.Assign, x.1, x.2, st2.index, false⟩
        else if nextChar = '=' then
          let st2 := st1.increBy 2
          match st2.spanStartEnd 2 with
          | none => LexStep.crash
          | some x => LexStep.emit st2 ⟨"<=", TokenKind.Lte, x.1, x.2, st2.index, false⟩
        else
          let st2 := st1.increBy 1
          match st2.spanStartEnd 1 with
          | none => LexStep.crash
          | some x => LexStep.emit st2 ⟨"<", TokenKind.Lt, x.1, x.2, st2.index, false⟩
    else if character = ':' then
      match st1.peekf with
      | none => LexStep.crash
      | some nextChar =>
        if nextChar = ':' then
          let st2 := st1.increBy 2
          match st2.spanStartEnd 2 with
          | none => LexStep.crash
          | some x => LexStep.emit st2 ⟨"::", TokenKind.TQualifer, x.1, x.2, st2.index, false⟩
        else
          LexStep.skip { st1 with foundError := true }
    else if character = '.' then
      if (st1.peekPrevious.elim false fun c0 => rustIsAlphabetic c0 || c0 = '_') &&
          (st1.peekf.elim false fun c2 => rustIsAlphabetic c2 || c2 = '_') then
        let st2 := st1.increBy 1
        match st2.spanStartEnd 1 with
        | none => LexStep.crash
        | some x => LexStep.emit st2 ⟨".", TokenKind.RecordDot, x.1, x.2, st2.index, false⟩
      else if st1.peekf.elim false (fun c2 => c2 = '.') then
        let st2 := st1.increBy 2
        match st2.spanStartEnd 2 with
        | none => LexStep.crash
        | some x => LexStep.emit st2 ⟨"..", TokenKind.ExRange, x.1, x.2, st2.index, false⟩
      else
        LexStep.skip { st1 with foundError := true }
    else
      LexStep.skip { st1 with foundError := true }

/-- Outcome of `Lexer::lex`: the token vector (`Ok`), the
`LexError::Failed(path)` failure, a panic (`crash`), or fuel exhaustion of
the embedding (`spent`; unreachable with fuel above the iteration count,
since every loop iteration advances the index by at least one or exits). -/
inductive LexOut where
  | ok (toks : List Token)
  | failed (path : String)
  | crash
  | spent
deriving DecidableEq

/-- The final `found_error` check of `Lexer::lex`. -/
def lexFinish (st : LexerSt) (tokens : List Token) : LexOut :=
  if ¬st.foundError then LexOut.ok tokens else LexOut.failed st.sourcePath

/-- The short-circuit evaluation of
`ch.is_numeric() && self.peek().expect("peeked passed EOF.").is_alphabetic()`
(`none` models the `expect` panic). -/
def numAlphaCheck (st : LexerSt) (ch : Char) : Option Bool :=
  if rustIsNumeric ch then
    match st.peekf with
    | none => none
    | some c2 => some (rustIsAlphabetic c2)
  else some false

/-- The conditional
`if !self.current_tok.trim().is_empty() && self.hint_tok == Number \x7b
self.consume_num_or_float_lit(&mut tokens) \x7d` (`none` models a panic). -/
def maybeFlushNum (st : LexerSt) : Option (LexerSt × Option Token) :=
  if ¬(rustTrim st.currentTok).isEmpty ∧ st.hint = TokenHint.Number then
    (consumeNumOrFloat st).map (fun x => (x.1, some x.2))
  else some (st, none)

/-- The analogous conditional for `consume_ident_or_reserved`. -/
def maybeFlushIdent (st : LexerSt) : Option (LexerSt × Option Token) :=
  if ¬(rustTrim st.currentTok).isEmpty ∧ st.hint = TokenHint.IdentOrKeyword then
    (consumeIdentOrReserved st).map (fun x => (x.1, some x.2))
  else some (st, none)

/-- Append an optionally produced token to the buffer. -/
def pushTok (tokens : List Token) : Option Token → List Token
  | some t => tokens ++ [t]
  | none => tokens

/-- The token-building `while` loop of `Lexer::lex`, one fuel unit per
iteration. -/
def lexLoop : Nat → LexerSt → List Token → LexOut
  | 0, _, _ => LexOut.spent
  | fuel + 1, st, tokens =>
    if st.eof then lexFinish st tokens
    else
      match st.peekCurrent with
      | (_, none) => LexOut.crash
      | (st0, some ch) =>
        let st1 :=
          if (rustTrim st0.currentTok).isEmpty then
            if rustIsAlphabetic ch then { st0 with hint := TokenHint.IdentOrKeyword }
            else if rustIsNumeric ch then { st0 with hint := TokenHint.Number }
            else st0
          else st0
        match numAlphaCheck st1 ch with
        | none => LexOut.crash
        | some true =>
          lexLoop fuel (LexerSt.increBy { st1 with foundError := true } 1) tokens
        | some false =>
          if rustIsNumeric ch ∧ st1.hint = TokenHint.Number then
            lexLoop fuel
              (LexerSt.increBy { st1 with currentTok := st1.currentTok ++ [ch] } 1)
              tokens
          else if ch = '_' ∧ st1.hint ≠ TokenHint.IdentOrKeyword then
            if st1.peekf.elim false (fun c2 => !rustIsAlphabetic c2 && c2 ≠ '_') then
              lexLoop fuel (LexerSt.increBy { st1 with foundError := true } 1) tokens
            else
              match maybeFlushNum st1 with
              | none => LexOut.crash
              | some (st2, em) =>
                lexLoop fuel
                  (LexerSt.increBy
                    { st2 with
                      currentTok := st2.currentTok ++ [ch]
                      hint := TokenHint.IdentOrKeyword } 1)
                  (pushTok tokens em)
          else if rustIsWhitespace ch then
            match maybeFlushIdent st1 with
            | none => LexOut.crash
            | some (st2, em1) =>
              match maybeFlushNum st2 with
              | none => LexOut.crash
              | some (st3, em2) =>
                lexLoop fuel (st3.increBy 1) (pushTok (pushTok tokens em1) em2)
          else if rustIsAsciiPunctuation ch then
            if ¬(rustTrim st1.currentTok).isEmpty then
              if st1.hint = TokenHint.Undetermined then LexOut.crash
              else if st1.hint = TokenHint.IdentOrKeyword then
                if ch = '_' then
                  lexLoop fuel
                    (LexerSt.increBy { st1 with currentTok := st1.currentTok ++ [ch] } 1)
                    tokens
                else
                  let kr := refinedOrIdent (String.mk st1.currentTok)
                  match st1.spanStartEnd st1.currentTok.length with
                  | none => LexOut.crash
                  | some x =>
                    let tok : Token :=
                      ⟨String.mk st1.currentTok, kr.1, x.1, x.2, st1.index, kr.2⟩
                    let st2 : LexerSt :=
                      { st1 with hint := TokenHint.Undetermined, currentTok := [] }
                    match lexPunctuation st2 with
                    | LexStep.crash => LexOut.crash
                    | LexStep.emit st3 tok2 =>
                      lexLoop fuel
                        { st3 with currentTok := [], hint := TokenHint.Undetermined }
                        (tokens ++ [tok] ++ [tok2])
                    | LexStep.skip st3 =>
                      lexLoop fuel
                        (LexerSt.increBy
                          { st3 with
                            hint := TokenHint.Undetermined
                            currentTok := [] } 1)
                        (tokens ++ [tok])
              else
                if ch = '.' ∧
                    st1.peekPrevious.elim false (fun c0 => rustIsNumeric c0) ∧
                    st1.peekf.elim false (fun c2 => rustIsNumeric c2) then
                  lexLoop fuel
                    (LexerSt.increBy { st1 with currentTok := st1.currentTok ++ [ch] } 1)
                    tokens
                else
                  let kind :=
                    if st1.currentTok.contains '.' then TokenKind.FloatLit
                    else TokenKind.NumLit
                  match st1.spanStartEnd st1.currentTok.length with
                  | none => LexOut.crash
                  | some x =>
                    let tok : Token :=
                      ⟨String.mk st1.currentTok, kind, x.1, x.2, st1.index, false⟩
                    let st2 : LexerSt :=
                      { st1 with hint := TokenHint.Undetermined, currentTok := [] }
                    match lexPunctuation st2 with
                    | LexStep.crash => LexOut.crash
                    | LexStep.emit st3 tok2 =>
                      lexLoop fuel
                        { st3 with currentTok := [], hint := TokenHint.Undetermined }
                        (tokens ++ [tok] ++ [tok2])
                    | LexStep.skip st3 =>
                      lexLoop fuel
                        (LexerSt.increBy
                          { st3 with
                            hint := TokenHint.Undetermined
                            currentTok := [] } 1)
                        (tokens ++ [tok])
            else
              match lexPunctuation st1 with
              | LexStep.crash => LexOut.crash
              | LexStep.emit st3 tok2 =>
                lexLoop fuel
                  { st3 with currentTok := [], hint := TokenHint.Undetermined }
                  (tokens ++ [tok2])
              | LexStep.skip st3 =>
                lexLoop fuel
                  (LexerSt.increBy
                    { st3 with hint := TokenHint.Undetermined, currentTok := [] } 1)
                  tokens
          else
            lexLoop fuel
              (LexerSt.increBy { st1 with currentTok := st1.currentTok ++ [ch] } 1)
              tokens

/-- `Lexer::lex` for a source at `path` with contents `content`. -/
def lex (path content : String) (fuel : Nat) : LexOut :=
  let st := Lexer.new path content
  if (rustTrim st.content).isEmpty then lexFinish st []
  else lexLoop fuel st []

/-! ### AST (`ast.rs`)

`Expression` is the S-expression type.  In the source,
`Statement::VarBindingInit` declares its `rhs` field as an `RValue`, but the
parser constructs it directly from the unwrapped `Expression` it parsed, so
the embedding stores that `Expression`. -/

inductive Expression where
  | Atom (tok : Token)
  | Cons (op : Token) (operands : List Expression)

/-- `TypeTok(Token)`. -/
structure TypeTok where
  tok : Token
deriving DecidableEq

mutual

inductive Block where
  | mk (statements : Option (List Statement)) (expression : Option Expression)

inductive Statement where
  | VarBindingInit (bindName : Token) (tyHint : Option TypeTok) (rhs : Expression)
  | VarBindingMut (bindName : Token) (expr : Expression)
  | Selection (ifComp : IfComp) (elifComp : Option ElifComp)
      (elseComp : Option ElseComp)
  | IndefiniteLoop (expr : Expression) (block : Block)
  | DefiniteLoop (indexName lowBound highBound : Token) (block : Block)
  | FuncCall (name : Token) (args : List (Option Expression))

inductive IfComp where
  | mk (boolExpr : Expression) (block : Block)

inductive ElifComp where
  | mk (boolExpr : Expression) (block : Block)

inductive ElseComp where
  | mk (block : Block)

end

/-- `FuncSignature`. -/
structure FuncSignature where
  funcName : Token
  tyList : Option (List Token)
  tyRet : Option Token

/-- `FuncDefinition`. -/
structure FuncDefinition where
  funcName : Token
  argList : Option (List Token)
  block : Block

/-- `Declaration`. -/
inductive Declaration where
  | Function (signature : FuncSignature) (definition : FuncDefinition)
  | Choice (name : Token) (variants : Option (List Token))
  | Struct (name : Token) (typedFields : Option (List (Token × Token)))

/-- `Program`. -/
structure Program where
  declarations : Option (List Declaration)

/-! ### Parser (`ast_parser.rs`)

A parser computation takes the (fixed) token vector and the cursor position
and yields `PRes.ok value newPos` on success, `PRes.fail` for
`Err(ParserError::ParseFail)`, `PRes.crash` for a Rust panic
(`Option::unwrap` on `None`, `expect`, `assert!`, or an explicit
`panic!`-macro call in the Pratt layer), and `PRes.spent` for fuel
exhaustion of the embedding, never reached on the inputs considered since
each loop iteration or nested call consumes at least one token or exits. -/

inductive PRes (α : Type) where
  | ok (a : α) (pos : Nat)
  | fail
  | crash
  | spent

/-- Sequence two parser computations. -/
def PRes.andThen {α β : Type} : PRes α → (α → Nat → PRes β) → PRes β
  | PRes.ok a p, f => f a p
  | PRes.fail, _ => PRes.fail
  | PRes.crash, _ => PRes.crash
  | PRes.spent, _ => PRes.spent

/-- `Parser::peek` (the `Cell` cursor is the explicit `pos`). -/
def peekP (tokens : List Token) (pos : Nat) : Option Token :=
  tokens.get? pos

/-- `Parser::peek_next`. -/
def peekNextP (tokens : List Token) (pos : Nat) : Option Token :=
  tokens.get? (pos + 1)

/-- `Parser::try_consume`: `peek().unwrap()` (crash at end of stream), then
advance on a kind match or report `unexpected-token` and fail. -/
def tryConsume (tokens : List Token) (pos : Nat) (valid : List TokenKind) :
    PRes Token :=
  match peekP tokens pos with
  | none => PRes.crash
  | some t =>
    if valid.contains t.kind then PRes.ok t (pos + 1) else PRes.fail

/-- `Parser::try_peek`: as `try_consume` without the advance. -/
def tryPeek (tokens : List Token) (pos : Nat) (valid : List TokenKind) :
    PRes Token :=
  match peekP tokens pos with
  | none => PRes.crash
  | some t =>
    if valid.contains t.kind then PRes.ok t pos else PRes.fail

/-- `Parser::optional_consume`. -/
def optionalConsume (tokens : List Token) (pos : Nat)
    (valid : List TokenKind) : PRes (Option Token) :=
  match peekP tokens pos with
  | none => PRes.crash
  | some t =>
    if valid.contains t.kind then PRes.ok (some t) (pos + 1)
    else PRes.ok none pos

/-- `Parser::optional_peek`. -/
def optionalPeek (tokens : List Token) (pos : Nat)
    (valid : List TokenKind) : PRes (Option Token) :=
  match peekP tokens pos with
  | none => PRes.crash
  | some t =>
    if valid.contains t.kind then PRes.ok (some t) pos
    else PRes.ok none pos

/-- `Parser::optional_peek_next` (`peek_next().unwrap()`). -/
def optionalPeekNext (tokens : List Token) (pos : Nat)
    (valid : List TokenKind) : PRes (Option Token) :=
  match peekNextP tokens pos with
  | none => PRes.crash
  | some t =>
    if valid.contains t.kind then PRes.ok (some t) pos
    else PRes.ok none pos

/-- `Parser::try_consume2_or_none`: both optional consumes run in sequence;
both absent is `Ok((None, None))`, a half match reports (`missing-type` or
`unexpected-token`) and fails. -/
def tryConsume2OrNone (tokens : List Token) (pos : Nat)
    (valid1 valid2 : List TokenKind) : PRes (Option Token × Option Token) :=
  (optionalConsume tokens pos valid1).andThen fun t1 pos1 =>
    (optionalConsume tokens pos1 valid2).andThen fun t2 pos2 =>
      match t1, t2 with
      | none, none => PRes.ok (none, none) pos2
      | some _, none => PRes.fail
      | none, some _ => PRes.fail
      | some a, some b => PRes.ok (some a, some b) pos2

/-- `Parser::try_consume_ty`. -/
def tryConsumeTy (tokens : List Token) (pos : Nat) : PRes Token :=
  tryConsume tokens pos
    [TokenKind.IntTy, TokenKind.FloatTy, TokenKind.BoolTy, TokenKind.TextTy]

/-- The accumulation loop shared by `try_consume_list` and
`optional_consume_list` (separators skipped, matching tokens pushed; the
`peek().unwrap()` at each step crashes past the end of the stream). -/
def consumeListLoop (tokens : List Token) (valid : List TokenKind) :
    Nat → Token → Nat → List Token → PRes (List Token)
  | 0, _, _, _ => PRes.spent
  | fuel + 1, curr, pos, acc =>
    if valid.contains curr.kind || curr.kind = TokenKind.Sep then
      if curr.kind = TokenKind.Sep then
        match peekP tokens (pos + 1) with
        | none => PRes.crash
        | some c2 => consumeListLoop tokens valid fuel c2 (pos + 1) acc
      else
        match peekP tokens (pos + 1) with
        | none => PRes.crash
        | some c2 => consumeListLoop tokens valid fuel c2 (pos + 1) (acc ++ [curr])
    else PRes.ok acc pos

/-- `Parser::try_consume_list`. -/
def tryConsumeList (tokens : List Token) (fuel pos : Nat)
    (valid : List TokenKind) : PRes (List Token) :=
  match peekP tokens pos with
  | none => PRes.crash
  | some curr =>
    if ¬valid.contains curr.kind then PRes.fail
    else consumeListLoop tokens valid fuel curr pos []

/-- `Parser::optional_consume_list`. -/
def optionalConsumeList (tokens : List Token) (fuel pos : Nat)
    (valid : List TokenKind) : PRes (Option (List Token)) :=
  match peekP tokens pos with
  | none => PRes.crash
  | some curr =>
    if ¬valid.contains curr.kind then PRes.ok none pos
    else (consumeListLoop tokens valid fuel curr pos []).andThen fun l p =>
      PRes.ok (some l) p

/-- The loop of `try_optional_consume_list_with_seps` (`expected_sep`
bookkeeping; the missing-comma / stray-comma diagnostics only print, and a
stray comma is pushed like a matching token). -/
def listSepsLoop (tokens : List Token) (valid : List TokenKind) :
    Nat → Token → Nat → List Token → Bool → PRes (List Token)
  | 0, _, _, _, _ => PRes.spent
  | fuel + 1, curr, pos, acc, expSep =>
    if valid.contains curr.kind || curr.kind = TokenKind.Sep then
      if curr.kind = TokenKind.Sep ∧ expSep then
        match peekP tokens (pos + 1) with
        | none => PRes.crash
        | some c2 => listSepsLoop tokens valid fuel c2 (pos + 1) acc false
      else
        match peekP tokens (pos + 1) with
        | none => PRes.crash
        | some c2 => listSepsLoop tokens valid fuel c2 (pos + 1) (acc ++ [curr]) true
    else PRes.ok acc pos

/-- `Parser::try_optional_consume_list_with_seps`. -/
def tryOptionalConsumeListWithSeps (tokens : List Token) (fuel pos : Nat)
    (valid : List TokenKind) : PRes (Option (List Token)) :=
  match peekP tokens pos with
  | none => PRes.crash
  | some curr =>
    if ¬valid.contains curr.kind then PRes.ok none pos
    else (listSepsLoop tokens valid fuel curr pos [] false).andThen fun l p =>
      PRes.ok (some l) p

/-- `Parser::try_optional_consume_typed_ident`. -/
def tryOptionalConsumeTypedIdent (tokens : List Token) (pos : Nat) :
    PRes (Option (Token × Token)) :=
  (optionalPeek tokens pos [TokenKind.Ident]).andThen fun ot pos1 =>
    match ot with
    | none => PRes.ok none pos1
    | some identTok =>
      (tryConsume tokens (pos1 + 1) [TokenKind.TQualifer]).andThen fun _ pos3 =>
        (tryConsumeTy tokens pos3).andThen fun explicitTy pos4 =>
          PRes.ok (some (identTok, explicitTy)) pos4

/-- The loop of `try_optional_consume_typed_list_with_seps`. -/
def typedListLoop (tokens : List Token) :
    Nat → Nat → List (Token × Token) → PRes (Option (List (Token × Token)))
  | 0, _, _ => PRes.spent
  | fuel + 1, pos, acc =>
    (tryOptionalConsumeTypedIdent tokens pos).andThen fun oty pos1 =>
      match oty with
      | none =>
        if acc.isEmpty then PRes.ok none pos1 else PRes.ok (some acc) pos1
      | some pair =>
        (tryPeek tokens pos1 [TokenKind.Sep, TokenKind.RBracket]).andThen
          fun curr pos2 =>
            if curr.kind = TokenKind.Sep then
              typedListLoop tokens fuel (pos2 + 1) (acc ++ [pair])
            else if curr.kind = TokenKind.RBracket then
              PRes.ok (some (acc ++ [pair])) pos2
            else
              typedListLoop tokens fuel pos2 acc

/-- `Parser::try_optional_consume_typed_list_with_seps`. -/
def tryOptionalConsumeTypedListWithSeps (tokens : List Token)
    (fuel pos : Nat) : PRes (Option (List (Token × Token))) :=
  typedListLoop tokens fuel pos []

/-- `Parser::get_prefix_bind_power` (`none` models the unsupported-operator
`panic!`-macro arm). -/
def getPrefixBindPower (op : Token) : Option (Unit × Nat) :=
  if op.kind = TokenKind.Minus then some ((), 13) else none

/-- `Parser::get_infix_bind_power` (`none` models the unsupported-operator
`panic!`-macro arm; every non-panicking path returns `Some`). -/
def getInfixBindPower (op : Token) : Option (Nat × Nat) :=
  if op.kind = TokenKind.OrKw then some (1, 2)
  else if op.kind = TokenKind.AndKw then some (3, 4)
  else if op.kind = TokenKind.Eq then some (5, 6)
  else if op.kind = TokenKind.Lt then some (5, 6)
  else if op.kind = TokenKind.Lte then some (5, 6)
  else if op.kind = TokenKind.Gt then some (5, 6)
  else if op.kind = TokenKind.Gte then some (5, 6)
  else if op.kind = TokenKind.Plus then some (7, 8)
  else if op.kind = TokenKind.Minus then some (7, 8)
  else if op.kind = TokenKind.Mul then some (9, 10)
  else if op.kind = TokenKind.Div then some (9, 10)
  else if op.kind = TokenKind.AsKw then some (11, 12)
  else none

/-- `Parser::get_postfix_bind_power` (a genuine `None` for every operator
other than `LSBracket`). -/
def getPostfixBindPower (op : Token) : Option (Nat × Unit) :=
  if op.kind = TokenKind.LSBracket then some (15, ()) else none

/-- The operator kinds of `parse_expression`'s inner loop. -/
def exprOpKind : List TokenKind :=
  [TokenKind.Plus, TokenKind.Minus, TokenKind.Div, TokenKind.Mul,
   TokenKind.Lt, TokenKind.Lte, TokenKind.Gt, TokenKind.Gte, TokenKind.Eq,
   TokenKind.OrKw, TokenKind.AndKw, TokenKind.AsKw]

/-- The punctuation kinds of `parse_expression`'s inner loop. -/
def exprPuncKind : List TokenKind :=
  [TokenKind.LSBracket, TokenKind.RSBracket, TokenKind.RParn,
   TokenKind.LBracket, TokenKind.RBracket, TokenKind.Semicolon]

mutual

/-- `Parser::parse_expression` (Pratt parsing; one fuel unit per call). -/
def parseExpression (tokens : List Token) :
    Nat → Nat → Nat → PRes (Option Expression)
  | 0, _, _ => PRes.spent
  | fuel + 1, minimumBp, pos =>
    let allKind :=
      [TokenKind.Minus] ++
        [TokenKind.Ident, TokenKind.FloatTy, TokenKind.IntTy,
         TokenKind.BoolTy, TokenKind.TextTy] ++
        [TokenKind.BoolLit, TokenKind.NumLit, TokenKind.FloatLit] ++
        [TokenKind.RBracket, TokenKind.Semicolon, TokenKind.LParn]
    (tryConsume tokens pos allKind).andThen fun goodTok pos1 =>
      if goodTok.kind = TokenKind.RBracket then PRes.ok none (pos1 - 1)
      else if goodTok.kind = TokenKind.Semicolon then PRes.ok none (pos1 - 1)
      else if goodTok.kind = TokenKind.LParn then
        (parseExpression tokens fuel 0 pos1).andThen fun lhsOpt pos2 =>
          (tryConsume tokens pos2 [TokenKind.RParn]).andThen fun _ pos3 =>
            match lhsOpt with
            | none => PRes.crash
            | some lhs => parseExprLoop tokens fuel minimumBp lhs pos3
      else if goodTok.kind = TokenKind.Minus then
        match getPrefixBindPower goodTok with
        | none => PRes.crash
        | some (_, rightBp) =>
          (parseExpression tokens fuel rightBp pos1).andThen fun rhsOpt pos2 =>
            match rhsOpt with
            | none => PRes.crash
            | some rhs =>
              parseExprLoop tokens fuel minimumBp
                (Expression.Cons goodTok [rhs]) pos2
      else
        parseExprLoop tokens fuel minimumBp (Expression.Atom goodTok) pos1

/-- The operator loop of `parse_expression` (one fuel unit per iteration).
`EOF` and the terminator kinds break out and return the accumulated LHS;
`try_peek`'s accepted list does not contain `EOF`, so that arm is only
reachable through the `fail` of `try_peek`. -/
def parseExprLoop (tokens : List Token) :
    Nat → Nat → Expression → Nat → PRes (Option Expression)
  | 0, _, _, _ => PRes.spent
  | fuel + 1, minimumBp, lhs, pos =>
    (tryPeek tokens pos (exprOpKind ++ exprPuncKind)).andThen fun op pos0 =>
      if op.kind = TokenKind.EOF then PRes.ok (some lhs) pos0
      else if op.kind = TokenKind.Semicolon then PRes.ok (some lhs) pos0
      else if exprOpKind.contains op.kind || op.kind = TokenKind.LSBracket then
        match getPostfixBindPower op with
        | some (leftBp, _) =>
          if leftBp < minimumBp then PRes.ok (some lhs) pos0
          else
            if op.kind = TokenKind.LSBracket then
              (parseExpression tokens fuel 0 (pos0 + 1)).andThen
                fun rhsOpt pos2 =>
                  match rhsOpt with
                  | none => PRes.crash
                  | some rhs =>
                    (tryConsume tokens pos2 [TokenKind.RSBracket]).andThen
                      fun _ pos3 =>
                        parseExprLoop tokens fuel minimumBp
                          (Expression.Cons op [lhs, rhs]) pos3
            else
              parseExprLoop tokens fuel minimumBp
                (Expression.Cons op [lhs]) (pos0 + 1)
        | none =>
          match getInfixBindPower op with
          | none => PRes.crash
          | some (leftBp, rightBp) =>
            if leftBp < minimumBp then PRes.ok (some lhs) pos0
            else
              if op.kind = TokenKind.AsKw then
                (tryPeek tokens (pos0 + 1)
                    [TokenKind.IntTy, TokenKind.Ident, TokenKind.FloatTy,
                     TokenKind.BoolTy, TokenKind.TextTy]).andThen
                  fun _ pos2 =>
                    (parseExpression tokens fuel rightBp pos2).andThen
                      fun rhsOpt pos3 =>
                        match rhsOpt with
                        | none => PRes.crash
                        | some rhs =>
                          parseExprLoop tokens fuel minimumBp
                            (Expression.Cons op [lhs, rhs]) pos3
              else
                (parseExpression tokens fuel rightBp (pos0 + 1)).andThen
                  fun rhsOpt pos3 =>
                    match rhsOpt with
                    | none => PRes.crash
                    | some rhs =>
                      parseExprLoop tokens fuel minimumBp
                        (Expression.Cons op [lhs, rhs]) pos3
      else if op.kind = TokenKind.RSBracket then PRes.ok (some lhs) pos0
      else if op.kind = TokenKind.RParn then PRes.ok (some lhs) pos0
      else if op.kind = TokenKind.LBracket then PRes.ok (some lhs) pos0
      else if op.kind = TokenKind.RBracket then PRes.ok (some lhs) pos0
      else PRes.crash

end

/-- Statement-opening kinds peeked by `parse_statements`. -/
def stmtStartKind : List TokenKind :=
  [TokenKind.IfKw, TokenKind.WhileKw, TokenKind.ForKw, TokenKind.LetKw,
   TokenKind.StructKw, TokenKind.ChoiceKw, TokenKind.Ident]

/-- The type-hint kinds of `parse_var_binding_init`. -/
def tyHintKind : List TokenKind :=
  [TokenKind.Ident, TokenKind.IntTy, TokenKind.FloatTy, TokenKind.TextTy,
   TokenKind.BoolTy]

mutual

/-- `Parser::parse_block`. -/
def parseBlock (tokens : List Token) : Nat → Nat → PRes Block
  | 0, _ => PRes.spent
  | fuel + 1, pos =>
    (tryConsume tokens pos [TokenKind.LBracket]).andThen fun _ pos1 =>
      (parseStatementsLoop tokens fuel pos1 []).andThen fun statements pos2 =>
        (parseExpression tokens fuel 0 pos2).andThen fun expression pos3 =>
          (tryConsume tokens pos3 [TokenKind.RBracket]).andThen fun _ pos4 =>
            PRes.ok (Block.mk statements expression) pos4

/-- The statement loop of `Parser::parse_statements` with its accumulator. -/
def parseStatementsLoop (tokens : List Token) :
    Nat → Nat → List Statement → PRes (Option (List Statement))
  | 0, _, _ => PRes.spent
  | fuel + 1, pos, statements =>
    (optionalPeek tokens pos stmtStartKind).andThen fun currToken pos1 =>
      match currToken with
      | none =>
        if statements.isEmpty then PRes.ok none pos1
        else PRes.ok (some statements) pos1
      | some t =>
        if t.kind = TokenKind.LetKw then
          (parseVarBindingInit tokens fuel pos1).andThen fun s pos2 =>
            parseStatementsLoop tokens fuel pos2 (statements ++ [s])
        else if t.kind = TokenKind.IfKw then
          (parseSelection tokens fuel pos1).andThen fun s pos2 =>
            parseStatementsLoop tokens fuel pos2 (statements ++ [s])
        else if t.kind = TokenKind.WhileKw then
          (parseIndefiniteLoop tokens fuel pos1).andThen fun s pos2 =>
            parseStatementsLoop tokens fuel pos2 (statements ++ [s])
        else if t.kind = TokenKind.ForKw then
          (parseDefiniteLoop tokens fuel pos1).andThen fun s pos2 =>
            parseStatementsLoop tokens fuel pos2 (statements ++ [s])
        else if t.kind = TokenKind.Ident then
          (optionalPeekNext tokens pos1 [TokenKind.Assign]).andThen
            fun nxt pos1' =>
              match nxt with
              | some _ =>
                (parseVarBindingMutation tokens fuel pos1').andThen
                  fun s pos2 =>
                    parseStatementsLoop tokens fuel pos2 (statements ++ [s])
              | none =>
                if statements.isEmpty then PRes.ok none pos1'
                else PRes.ok (some statements) pos1'
        else
          if statements.isEmpty then PRes.ok none pos1
          else PRes.ok (some statements) pos1

/-- `Parser::parse_var_binding_init` (the debug `println!`-macro call
unwraps the parsed right-hand side before the `is_none` test, so a missing
RHS panics before the `var-bind-missing-rhs` diagnostic can fire). -/
def parseVarBindingInit (tokens : List Token) : Nat → Nat → PRes Statement
  | 0, _ => PRes.spent
  | fuel + 1, pos =>
    (tryConsume tokens pos [TokenKind.LetKw]).andThen fun _ pos1 =>
      (tryConsume tokens pos1 [TokenKind.Ident]).andThen fun varBindName pos2 =>
        (tryConsume2OrNone tokens pos2 [TokenKind.TQualifer] tyHintKind).andThen
          fun tq pos3 =>
            let tyHint : Option TypeTok := tq.2.map TypeTok.mk
            (tryConsume tokens pos3 [TokenKind.Assign]).andThen fun _ pos4 =>
              (parseExpression tokens fuel 0 pos4).andThen fun rhs pos5 =>
                match rhs with
                | none => PRes.crash
                | some rhsExpr =>
                  (tryConsume tokens pos5 [TokenKind.Semicolon]).andThen
                    fun _ pos6 =>
                      PRes.ok
                        (Statement.VarBindingInit varBindName tyHint rhsExpr)
                        pos6

/-- `Parser::parse_var_binding_mutation`. -/
def parseVarBindingMutation (tokens : List Token) : Nat → Nat → PRes Statement
  | 0, _ => PRes.spent
  | fuel + 1, pos =>
    (tryConsume tokens pos [TokenKind.Ident]).andThen fun varBindName pos1 =>
      (tryConsume tokens pos1 [TokenKind.Assign]).andThen fun _ pos2 =>
        (parseExpression tokens fuel 0 pos2).andThen fun rhs pos3 =>
          match rhs with
          | none => PRes.fail
          | some rhsExpr =>
            (tryConsume tokens pos3 [TokenKind.Semicolon]).andThen fun _ pos4 =>
              PRes.ok (Statement.VarBindingMut varBindName rhsExpr) pos4

/-- `Parser::parse_selection`. -/
def parseSelection (tokens : List Token) : Nat → Nat → PRes Statement
  | 0, _ => PRes.spent
  | fuel + 1, pos =>
    (parseIfComp tokens fuel pos).andThen fun ifComp pos1 =>
      (parseElifComp tokens fuel pos1).andThen fun elifComp pos2 =>
        (parseElseComp tokens fuel pos2).andThen fun elseComp pos3 =>
          PRes.ok (Statement.Selection ifComp elifComp elseComp) pos3

/-- `Parser::parse_if_comp` (a missing expression reports
`missing-expression-at(if-branch)` and fails). -/
def parseIfComp (tokens : List Token) : Nat → Nat → PRes IfComp
  | 0, _ => PRes.spent
  | fuel + 1, pos =>
    (tryConsume tokens pos [TokenKind.IfKw]).andThen fun _ pos1 =>
      (parseExpression tokens fuel 0 pos1).andThen fun ifExpr pos2 =>
        match ifExpr with
        | none => PRes.fail
        | some e =>
          (parseBlock tokens fuel pos2).andThen fun ifBlock pos3 =>
            PRes.ok (IfComp.mk e ifBlock) pos3

/-- `Parser::parse_elif_comp`. -/
def parseElifComp (tokens : List Token) : Nat → Nat → PRes (Option ElifComp)
  | 0, _ => PRes.spent
  | fuel + 1, pos =>
    (optionalPeek tokens pos [TokenKind.ElifKw]).andThen fun kw pos1 =>
      match kw with
      | none => PRes.ok none pos1
      | some _ =>
        (tryConsume tokens pos1 [TokenKind.ElifKw]).andThen fun _ pos2 =>
          (parseExpression tokens fuel 0 pos2).andThen fun elifExpr pos3 =>
            match elifExpr with
            | none => PRes.fail
            | some e =>
              (parseBlock tokens fuel pos3).andThen fun elifBlock pos4 =>
                PRes.ok (some (ElifComp.mk e elifBlock)) pos4

/-- `Parser::parse_else_comp`. -/
def parseElseComp (tokens : List Token) : Nat → Nat → PRes (Option ElseComp)
  | 0, _ => PRes.spent
  | fuel + 1, pos =>
    (optionalPeek tokens pos [TokenKind.ElseKw]).andThen fun kw pos1 =>
      match kw with
      | none => PRes.ok none pos1
      | some _ =>
        (tryConsume tokens pos1 [TokenKind.ElseKw]).andThen fun _ pos2 =>
          (parseBlock tokens fuel pos2).andThen fun elseBlock pos3 =>
            PRes.ok (some (ElseComp.mk elseBlock)) pos3

/-- `Parser::parse_indefinite_loop`. -/
def parseIndefiniteLoop (tokens : List Token) : Nat → Nat → PRes Statement
  | 0, _ => PRes.spent
  | fuel + 1, pos =>
    (tryConsume tokens pos [TokenKind.WhileKw]).andThen fun _ pos1 =>
      (parseExpression tokens fuel 0 pos1).andThen fun whileExpr pos2 =>
        match whileExpr with
        | none => PRes.fail
        | some e =>
          (parseBlock tokens fuel pos2).andThen fun whileBlock pos3 =>
            PRes.ok (Statement.IndefiniteLoop e whileBlock) pos3

/-- `Parser::parse_definite_loop`. -/
def parseDefiniteLoop (tokens : List Token) : Nat → Nat → PRes Statement
  | 0, _ => PRes.spent
  | fuel + 1, pos =>
    (tryConsume tokens pos [TokenKind.ForKw]).andThen fun _ pos1 =>
      (tryConsume tokens pos1 [TokenKind.Ident]).andThen fun forIndex pos2 =>
        (tryConsume tokens pos2 [TokenKind.InKw]).andThen fun _ pos3 =>
          (tryConsume tokens pos3 [TokenKind.NumLit]).andThen fun lowB pos4 =>
            (tryConsume tokens pos4 [TokenKind.ExRange]).andThen fun _ pos5 =>
              (tryConsume tokens pos5 [TokenKind.NumLit]).andThen fun highB pos6 =>
                (parseBlock tokens fuel pos6).andThen fun forBlock pos7 =>
                  PRes.ok
                    (Statement.DefiniteLoop forIndex lowB highB forBlock) pos7

end

/-- The function input/return types of `parse_function_signature`. -/
def sigTypes : List TokenKind :=
  [TokenKind.IntTy, TokenKind.BoolTy, TokenKind.TextTy, TokenKind.FloatTy]

/-- `Parser::parse_function_signature`. -/
def parseFunctionSignature (tokens : List Token) (fuel pos : Nat) :
    PRes FuncSignature :=
  (tryConsume tokens pos [TokenKind.Ident, TokenKind.MainKw]).andThen
    fun funcName pos1 =>
      (tryConsume tokens pos1 [TokenKind.TQualifer]).andThen fun _ pos2 =>
        (tryConsume tokens pos2 [TokenKind.LParn]).andThen fun _ pos3 =>
          (optionalConsumeList tokens fuel pos3 sigTypes).andThen
            fun funcInputTys pos4 =>
              (tryConsume tokens pos4 [TokenKind.RParn]).andThen fun _ pos5 =>
                (tryConsume2OrNone tokens pos5 [TokenKind.RetArrow]
                    sigTypes).andThen fun rt pos6 =>
                  PRes.ok (FuncSignature.mk funcName funcInputTys rt.2) pos6

/-- `Parser::parse_function_definition`. -/
def parseFunctionDefinition (tokens : List Token) (fuel pos : Nat) :
    PRes FuncDefinition :=
  (tryConsume tokens pos [TokenKind.Ident, TokenKind.MainKw]).andThen
    fun funcName pos1 =>
      (optionalConsumeList tokens fuel pos1 [TokenKind.Ident]).andThen
        fun funcParams pos2 =>
          (tryConsume tokens pos2 [TokenKind.FnDef]).andThen fun _ pos3 =>
            (parseBlock tokens fuel pos3).andThen fun block pos4 =>
              PRes.ok (FuncDefinition.mk funcName funcParams block) pos4

/-- `Parser::parse_function_declaration`. -/
def parseFunctionDeclaration (tokens : List Token) (fuel pos : Nat) :
    PRes Declaration :=
  (parseFunctionSignature tokens fuel pos).andThen fun signature pos1 =>
    (parseFunctionDefinition tokens fuel pos1).andThen fun definition pos2 =>
      PRes.ok (Declaration.Function signature definition) pos2

/-- `Parser::parse_choice_declaration`. -/
def parseChoiceDeclaration (tokens : List Token) (fuel pos : Nat) :
    PRes Declaration :=
  (tryConsume tokens pos [TokenKind.Ident]).andThen fun choiceName pos1 =>
    (tryConsume tokens pos1 [TokenKind.TQualifer]).andThen fun _ pos2 =>
      (tryConsume tokens pos2 [TokenKind.ChoiceKw]).andThen fun _ pos3 =>
        (tryConsume tokens pos3 [TokenKind.LBracket]).andThen fun _ pos4 =>
          (tryOptionalConsumeListWithSeps tokens fuel pos4
              [TokenKind.Ident]).andThen fun choiceVariants pos5 =>
            (tryConsume tokens pos5 [TokenKind.RBracket]).andThen fun _ pos6 =>
              PRes.ok (Declaration.Choice choiceName choiceVariants) pos6

/-- `Parser::parse_struct_declaration`. -/
def parseStructDeclaration (tokens : List Token) (fuel pos : Nat) :
    PRes Declaration :=
  (tryConsume tokens pos [TokenKind.Ident]).andThen fun structName pos1 =>
    (tryConsume tokens pos1 [TokenKind.TQualifer]).andThen fun _ pos2 =>
      (tryConsume tokens pos2 [TokenKind.StructKw]).andThen fun _ pos3 =>
        (tryConsume tokens pos3 [TokenKind.LBracket]).andThen fun _ pos4 =>
          (tryOptionalConsumeTypedListWithSeps tokens fuel pos4).andThen
            fun structFields pos5 =>
              (tryConsume tokens pos5 [TokenKind.RBracket]).andThen fun _ pos6 =>
                PRes.ok (Declaration.Struct structName structFields) pos6

/-- The declaration loop of `Parser::parse_declarations`.  A failing initial
`try_consume` returns `Ok(None)` when no declaration has been parsed yet and
otherwise panics on the `curr_token.unwrap()`; an `EOF` name token breaks
the loop. -/
def parseDeclsLoop (tokens : List Token) :
    Nat → Nat → List Declaration → PRes (Option (List Declaration))
  | 0, _, _ => PRes.spent
  | fuel + 1, pos, declarations =>
    match tryConsume tokens pos
        [TokenKind.Ident, TokenKind.MainKw, TokenKind.EOF] with
    | PRes.crash => PRes.crash
    | PRes.spent => PRes.spent
    | PRes.fail =>
      if declarations.isEmpty then PRes.ok none pos else PRes.crash
    | PRes.ok nameToken pos1 =>
      if nameToken.kind = TokenKind.EOF then
        PRes.ok (some declarations) pos1
      else if nameToken.kind = TokenKind.Ident ∨
          nameToken.kind = TokenKind.MainKw then
        (tryConsume tokens pos1 [TokenKind.TQualifer]).andThen fun _ pos2 =>
          (tryConsume tokens pos2
              [TokenKind.StructKw, TokenKind.ChoiceKw,
               TokenKind.LParn]).andThen fun declTok pos3 =>
            let pos4 := pos3 - 3
            (if declTok.kind = TokenKind.StructKw then
                parseStructDeclaration tokens fuel pos4
              else if declTok.kind = TokenKind.ChoiceKw then
                parseChoiceDeclaration tokens fuel pos4
              else
                parseFunctionDeclaration tokens fuel pos4).andThen
              fun declaration pos5 =>
                parseDeclsLoop tokens fuel pos5 (declarations ++ [declaration])
      else
        PRes.ok (some declarations) pos1

/-- `Parser::parse_declarations`. -/
def parseDeclarations (tokens : List Token) (fuel : Nat) :
    PRes (Option (List Declaration)) :=
  parseDeclsLoop tokens fuel 0 []

/-- `Parser::parse` (the `verbose` flag only prints). -/
def parse (tokens : List Token) (fuel : Nat) : PRes Program :=
  (parseDeclarations tokens fuel).andThen fun declarations pos =>
    PRes.ok (Program.mk declarations) pos

/-! ### Symbol table and duplicate-definition checks (`symbol_table/src/lib.rs`) -/

/-- `SemanticError`. -/
inductive SemanticError where
  | SemanticFail
deriving DecidableEq

/-- `Primitve` (source spelling). -/
inductive Primitve where
  | U32 | F32 | Bool | Text
deriving DecidableEq

/-- `SymbolKind`. -/
inductive SymbolKind where
  | FuncCall | Global | PrimVar | StructVar | ListVar | ChoiceVar
  | ForLoopIndex | FuncParm
deriving DecidableEq

/-- The symbol `Type` of the symbol table (named `SymType` here because
`Type` is a Lean keyword). -/
inductive SymType where
  | Prim (p : Primitve)
  | Struct
  | Choice
  | Func
  | List (p : Primitve)
  | Undetermined
deriving DecidableEq

/-- `SymbolNode::determine_sym_kind`. -/
def determineSymKind : SymType → SymbolKind
  | SymType.Prim _ => SymbolKind.PrimVar
  | SymType.Struct => SymbolKind.StructVar
  | SymType.Choice => SymbolKind.ChoiceVar
  | SymType.Func => SymbolKind.FuncCall
  | SymType.List _ => SymbolKind.ListVar
  | SymType.Undetermined => SymbolKind.PrimVar

/-- `SymbolNode` (the `Cell<SymbolKind>` is an ordinary field here; the
duplicate checks never read it). -/
structure SymbolNode where
  symName : Token
  symTy : SymType
  symKind : SymbolKind
  symScopeDepth : Nat
  symScopeBreath : Nat
deriving DecidableEq

/-- `SymbolNode::new`. -/
def SymbolNode.new (symName : Token) (symTy : SymType)
    (symScopeDepth symScopeBreath : Nat) : SymbolNode :=
  ⟨symName, symTy, determineSymKind symTy, symScopeDepth, symScopeBreath⟩

/-- `SymbolTable`. -/
structure SymbolTable where
  nodes : List SymbolNode
deriving DecidableEq

/-- The nested scan shared by the three duplicate checks: both loops
enumerate the family-filtered node sequence; the first pair of distinct
indices carrying the same raw name triggers the early `Err` return, which
is observationally the same as asking whether any such pair exists. -/
def dupScan (l : List SymbolNode) : Bool :=
  l.enum.any fun p =>
    l.enum.any fun q =>
      p.2.symName.rawContent == q.2.symName.rawContent && p.1 != q.1

/-- `check_for_dup_funcs_syms` (the `path`/`cleaned_source` arguments only
feed the printed diagnostic). -/
def checkForDupFuncsSyms (st : SymbolTable) : Except SemanticError Unit :=
  if dupScan (st.nodes.filter fun sn => sn.symTy == SymType.Func) then
    Except.error SemanticError.SemanticFail
  else Except.ok ()

/-- `check_for_dup_choice_syms`. -/
def checkForDupChoiceSyms (st : SymbolTable) : Except SemanticError Unit :=
  if dupScan (st.nodes.filter fun sn => sn.symTy == SymType.Choice) then
    Except.error SemanticError.SemanticFail
  else Except.ok ()

/-- `check_for_dup_structs_syms`. -/
def checkForDupStructsSyms (st : SymbolTable) : Except SemanticError Unit :=
  if dupScan (st.nodes.filter fun sn => sn.symTy == SymType.Struct) then
    Except.error SemanticError.SemanticFail
  else Except.ok ()

/-- Two distinct positions of `l` hold nodes with the same raw name. -/
def HasDupName (l : List SymbolNode) : Prop :=
  ∃ i j a b, i ≠ j ∧ l.get? i = some a ∧ l.get? j = some b ∧
    a.symName.rawContent = b.symName.rawContent

theorem dupScan_iff (l : List SymbolNode) :
    dupScan l = true ↔ HasDupName l := by
  unfold dupScan HasDupName
  rw [List.any_eq_true]
  constructor
  · rintro ⟨p, hp, hq⟩
    rw [List.any_eq_true] at hq
    obtain ⟨q, hq2, hcond⟩ := hq
    obtain ⟨i, a⟩ := p
    obtain ⟨j, b⟩ := q
    rw [List.mk_mem_enum_iff_getElem?] at hp hq2
    simp only [Bool.and_eq_true, beq_iff_eq, bne_iff_ne, ne_eq] at hcond
    exact ⟨i, j, a, b, hcond.2, by simpa [List.get?_eq_getElem?] using hp,
      by simpa [List.get?_eq_getElem?] using hq2, hcond.1⟩
  · rintro ⟨i, j, a, b, hij, ha, hb, hname⟩
    refine ⟨(i, a), ?_, ?_⟩
    · rw [List.mk_mem_enum_iff_getElem?]
      simpa [List.get?_eq_getElem?] using ha
    · rw [List.any_eq_true]
      refine ⟨(j, b), ?_, ?_⟩
      · rw [List.mk_mem_enum_iff_getElem?]
        simpa [List.get?_eq_getElem?] using hb
      · simp only [Bool.and_eq_true, beq_iff_eq, bne_iff_ne, ne_eq]
        exact ⟨hname, hij⟩

/-! ### Claim theorems -/

/-- Token constructor for parser-level statements (the parser never reads
span data, so the span fields are inert placeholders). -/
def mkTok (raw : String) (k : TokenKind) : Token :=
  ⟨raw, k, ⟨0, 0, ' '⟩, ⟨0, 0, ' '⟩, 0, false⟩

/-- Atom token kinds named by the precedence/associativity claims. -/
def atomKinds : List TokenKind :=
  [TokenKind.Ident, TokenKind.NumLit]

/-- C1: the claim asserts every successful `Lexer::lex` run returns a
non-empty token sequence ending in the `EOF` sentinel.  The code never
emits an `EOF` token: the empty source and the source `"a"` lex to `Ok`
with an empty token vector, and `"a "` lexes to `Ok` with a final `Ident`
token, not `EOF`. -/
theorem c1_lex_missing_eof_sentinel :
    lex "main.az" "" 16 = LexOut.ok [] ∧
    lex "main.az" "a" 16 = LexOut.ok [] ∧
    lex "main.az" "a " 16 =
      LexOut.ok
        [⟨"a", TokenKind.Ident, ⟨1, 1, 'a'⟩, ⟨1, 1, 'a'⟩, 1, false⟩] ∧
    TokenKind.Ident ≠ TokenKind.EOF := by
  refine ⟨by decide, by decide, by decide, by decide⟩

/-- C3: the claim asserts every single-punctuation character maps to its
token, in particular `[`, `]`, `!`, `!=`.  `lex_punctuation` has no arm for
`[`, `]` or `!`: each is reported as `unsupported-char` and the lexer
returns `Err`; on `"!="` the lexer reports the `!` and then panics peeking
past EOF at `=`.  The characters that do have arms behave as claimed
(e.g. `+` and `;` shown). -/
theorem c3_lexer_rejects_bracket_and_not_tokens :
    lex "main.az" "[" 16 = LexOut.failed "main.az" ∧
    lex "main.az" "]" 16 = LexOut.failed "main.az" ∧
    lex "main.az" "!" 16 = LexOut.failed "main.az" ∧
    lex "main.az" "!=" 16 = LexOut.crash ∧
    lex "main.az" "+" 16 =
      LexOut.ok
        [⟨"+", TokenKind.Plus, ⟨1, 1, '+'⟩, ⟨1, 1, '+'⟩, 1, false⟩] ∧
    lex "main.az" ";" 16 =
      LexOut.ok
        [⟨";", TokenKind.Semicolon, ⟨1, 1, ';'⟩, ⟨1, 1, ';'⟩, 1, false⟩] := by
  refine ⟨by decide, by decide, by decide, by decide, by decide, by decide⟩

/-- C2 counterexample: the claim asserts both comment-removal passes are
length-preserving, replacing comment interiors with spaces.  In fact the
single-line pass deletes `//b` from `"a//b\nc"` (keeping only the newline),
and the multi-line pass deletes `/*bc*/` from `"a/*bc*/d"`; both outputs
are strictly shorter than their inputs, so no non-comment character after a
comment keeps its byte offset. -/
theorem c2_counterexample_passes_shrink :
    removeSinglelineComments ⟨"a//b\nc", "main.az"⟩ =
      some ⟨"a\nc", "main.az"⟩ ∧
    ("a\nc" : String).length ≠ ("a//b\nc" : String).length ∧
    removeMultilineComment ⟨"a/*bc*/d", "main.az"⟩ =
      Except.ok ⟨"ad", "main.az"⟩ ∧
    ("ad" : String).length ≠ ("a/*bc*/d" : String).length := by
  refine ⟨?_, by decide, ?_, by decide⟩
  · simp [removeSinglelineComments, rmSingleGo, skipToNewline]
  · simp [removeMultilineComment, rmMultiGo, skipMulti, skipMultiKept,
      rustIsWhitespace]

/-- C2 amended: each comment-removal pass deletes comment characters
instead of space-padding them — the single-line pass keeps only the
terminating newline and the multi-line pass keeps only interior whitespace
— so the output is never longer than the input (and strictly shorter when
a comment is removed), while an input without the corresponding comment
opener is returned unchanged. -/
theorem c2_amended_passes_delete_comments :
    (∀ (p q : Preprocessor), removeSinglelineComments p = some q →
      q.content.length ≤ p.content.length) ∧
    (∀ (p q : Preprocessor), removeMultilineComment p = Except.ok q →
      q.content.length ≤ p.content.length) ∧
    (∀ p : Preprocessor, NoDoubleSlash p.content.data →
      removeSinglelineComments p = some p) ∧
    (∀ p : Preprocessor, NoOpener p.content.data →
      removeMultilineComment p = Except.ok p) := by
  refine ⟨?_, ?_, ?_, ?_⟩
  · intro p q h
    unfold removeSinglelineComments at h
    rw [Option.map_eq_some'] at h
    obtain ⟨l, hl, hq⟩ := h
    rw [← hq]
    exact rmSingleGo_length_le _ hl
  · intro p q h
    unfold removeMultilineComment at h
    cases hm : rmMultiGo p.content.data 0 with
    | error e => rw [hm] at h; exact absurd h (by simp)
    | ok l =>
      rw [hm] at h
      simp only [Except.ok.injEq] at h
      rw [← h]
      exact rmMultiGo_length_le _ _ hm
  · intro p hno
    unfold removeSinglelineComments
    rw [rmSingleGo_no_comment _ hno]
    rfl
  · intro p hno
    unfold removeMultilineComment
    rw [rmMultiGo_no_comment _ 0 hno]

/-- A list without `'/'` contains no `//`. -/
theorem noDoubleSlash_of_no_slash {l : List Char} (h : '/' ∉ l) :
    NoDoubleSlash l :=
  fun _ hi => h (List.get?_mem hi.1)

/-- A list without `'/'` contains no `/*`. -/
theorem noOpener_of_no_slash {l : List Char} (h : '/' ∉ l) : NoOpener l :=
  fun _ hi => h (List.get?_mem hi.1)

/-- Closed instantiation of the C2 amended theorem: the single-line pass
output `"a\nc"` for input `"a//b\nc"` is no longer than the input, and a
source with no comment opener passes through both passes unchanged. -/
theorem c2_amended_witness :
    ("a\nc" : String).length ≤ ("a//b\nc" : String).length ∧
    removeSinglelineComments ⟨"let x;", "main.az"⟩ =
      some ⟨"let x;", "main.az"⟩ ∧
    removeMultilineComment ⟨"let x;", "main.az"⟩ =
      Except.ok ⟨"let x;", "main.az"⟩ := by
  refine ⟨?_, ?_, ?_⟩
  · exact c2_amended_passes_delete_comments.1 ⟨"a//b\nc", "main.az"⟩
      ⟨"a\nc", "main.az"⟩
      (by simp [removeSinglelineComments, rmSingleGo, skipToNewline])
  · exact c2_amended_passes_delete_comments.2.2.1 ⟨"let x;", "main.az"⟩
      (noDoubleSlash_of_no_slash (by decide))
  · exact c2_amended_passes_delete_comments.2.2.2 ⟨"let x;", "main.az"⟩
      (noOpener_of_no_slash (by decide))

/-- C4: for the token stream of `a + b * c` (atoms identifier or
numeric-literal tokens, followed by the statement terminator `;`),
`parse_expression` with minimum binding power 0 yields
`Cons('+', [Atom(a), Cons('*', [Atom(b), Atom(c)])])`: multiplication
(binding power (9, 10)) binds tighter than addition ((7, 8)). -/
theorem c4_precedence_mul_binds_tighter
    (sa sb sc : String) (ka kb kc : TokenKind)
    (ha : ka ∈ atomKinds) (hb : kb ∈ atomKinds) (hc : kc ∈ atomKinds) :
    parseExpression
      [mkTok sa ka, mkTok "+" TokenKind.Plus, mkTok sb kb,
       mkTok "*" TokenKind.Mul, mkTok sc kc,
       mkTok ";" TokenKind.Semicolon] 32 0 0 =
    PRes.ok (some (Expression.Cons (mkTok "+" TokenKind.Plus)
      [Expression.Atom (mkTok sa ka),
       Expression.Cons (mkTok "*" TokenKind.Mul)
         [Expression.Atom (mkTok sb kb),
          Expression.Atom (mkTok sc kc)]])) 5 := by
  simp only [atomKinds, List.mem_cons, List.not_mem_nil, or_false] at ha hb hc
  rcases ha with rfl | rfl <;> rcases hb with rfl | rfl <;>
    rcases hc with rfl | rfl <;> rfl

/-- Closed instantiation of C4 at identifier atoms `a`, `b`, `c`. -/
theorem c4_witness :
    parseExpression
      [mkTok "a" TokenKind.Ident, mkTok "+" TokenKind.Plus,
       mkTok "b" TokenKind.Ident, mkTok "*" TokenKind.Mul,
       mkTok "c" TokenKind.Ident, mkTok ";" TokenKind.Semicolon] 32 0 0 =
    PRes.ok (some (Expression.Cons (mkTok "+" TokenKind.Plus)
      [Expression.Atom (mkTok "a" TokenKind.Ident),
       Expression.Cons (mkTok "*" TokenKind.Mul)
         [Expression.Atom (mkTok "b" TokenKind.Ident),
          Expression.Atom (mkTok "c" TokenKind.Ident)]])) 5 :=
  c4_precedence_mul_binds_tighter "a" "b" "c"
    TokenKind.Ident TokenKind.Ident TokenKind.Ident
    (by decide) (by decide) (by decide)

/-- C5: for the token stream of `a - b - c` (atoms identifier or
numeric-literal tokens, followed by the statement terminator `;`),
`parse_expression` with minimum binding power 0 yields the left-associated
`Cons('-', [Cons('-', [Atom(a), Atom(b)]), Atom(c)])`, forced by the
asymmetric binding-power pair (7, 8) of infix minus. -/
theorem c5_minus_left_associative
    (sa sb sc : String) (ka kb kc : TokenKind)
    (ha : ka ∈ atomKinds) (hb : kb ∈ atomKinds) (hc : kc ∈ atomKinds) :
    parseExpression
      [mkTok sa ka, mkTok "-" TokenKind.Minus, mkTok sb kb,
       mkTok "-" TokenKind.Minus, mkTok sc kc,
       mkTok ";" TokenKind.Semicolon] 32 0 0 =
    PRes.ok (some (Expression.Cons (mkTok "-" TokenKind.Minus)
      [Expression.Cons (mkTok "-" TokenKind.Minus)
         [Expression.Atom (mkTok sa ka),
          Expression.Atom (mkTok sb kb)],
       Expression.Atom (mkTok sc kc)])) 5 := by
  simp only [atomKinds, List.mem_cons, List.not_mem_nil, or_false] at ha hb hc
  rcases ha with rfl | rfl <;> rcases hb with rfl | rfl <;>
    rcases hc with rfl | rfl <;> rfl

/-- Closed instantiation of C5 at identifier atoms `a`, `b`, `c`. -/
theorem c5_witness :
    parseExpression
      [mkTok "a" TokenKind.Ident, mkTok "-" TokenKind.Minus,
       mkTok "b" TokenKind.Ident, mkTok "-" TokenKind.Minus,
       mkTok "c" TokenKind.Ident, mkTok ";" TokenKind.Semicolon] 32 0 0 =
    PRes.ok (some (Expression.Cons (mkTok "-" TokenKind.Minus)
      [Expression.Cons (mkTok "-" TokenKind.Minus)
         [Expression.Atom (mkTok "a" TokenKind.Ident),
          Expression.Atom (mkTok "b" TokenKind.Ident)],
       Expression.Atom (mkTok "c" TokenKind.Ident)])) 5 :=
  c5_minus_left_associative "a" "b" "c"
    TokenKind.Ident TokenKind.Ident TokenKind.Ident
    (by decide) (by decide) (by decide)

/-- Case analysis of the shared duplicate-check shape. -/
theorem dupCheckPair (l : List SymbolNode) :
    ((if dupScan l then
        (Except.error SemanticError.SemanticFail : Except SemanticError Unit)
      else Except.ok ()) = Except.error SemanticError.SemanticFail ↔
      HasDupName l) ∧
    ((if dupScan l then
        (Except.error SemanticError.SemanticFail : Except SemanticError Unit)
      else Except.ok ()) = Except.ok () ↔ ¬HasDupName l) := by
  rw [← dupScan_iff]
  by_cases h : dupScan l = true
  · simp [h]
  · simp [h]

/-- C6: each duplicate-symbol pass fails with `SemanticError::SemanticFail`
exactly when the symbol table holds two entries at distinct positions of
the pass's family (`Func`, `Choice`, `Struct` respectively) whose name
tokens carry identical raw content, and returns `Ok` exactly when no such
pair exists. -/
theorem c6_dup_sym_checks_iff (st : SymbolTable) :
    (checkForDupFuncsSyms st = Except.error SemanticError.SemanticFail ↔
      HasDupName (st.nodes.filter fun sn => sn.symTy == SymType.Func)) ∧
    (checkForDupFuncsSyms st = Except.ok () ↔
      ¬HasDupName (st.nodes.filter fun sn => sn.symTy == SymType.Func)) ∧
    (checkForDupChoiceSyms st = Except.error SemanticError.SemanticFail ↔
      HasDupName (st.nodes.filter fun sn => sn.symTy == SymType.Choice)) ∧
    (checkForDupChoiceSyms st = Except.ok () ↔
      ¬HasDupName (st.nodes.filter fun sn => sn.symTy == SymType.Choice)) ∧
    (checkForDupStructsSyms st = Except.error SemanticError.SemanticFail ↔
      HasDupName (st.nodes.filter fun sn => sn.symTy == SymType.Struct)) ∧
    (checkForDupStructsSyms st = Except.ok () ↔
      ¬HasDupName (st.nodes.filter fun sn => sn.symTy == SymType.Struct)) :=
  ⟨(dupCheckPair _).1, (dupCheckPair _).2, (dupCheckPair _).1,
    (dupCheckPair _).2, (dupCheckPair _).1, (dupCheckPair _).2⟩

/-- C7 counterexample: the claim asserts every input containing an
unterminated `/*` fails with `missing-terminator`.  The input `"/**"`
contains the opener `/*` and no closing `*/` anywhere, yet
`remove_multiline_comment` succeeds (the skip loop exits on the second `*`
as `temp_chr` and silently swallows the rest). -/
theorem c7_counterexample_unclosed_accepted :
    removeMultilineComment ⟨"/**", "main.az"⟩ =
      Except.ok ⟨"", "main.az"⟩ ∧
    openerAt ("/**" : String).data 0 ∧
    (∀ j, ¬closerAt ("/**" : String).data j) := by
  refine ⟨?_, ⟨by decide, by decide⟩, ?_⟩
  · simp [removeMultilineComment, rmMultiGo, skipMulti, skipMultiKept,
      rustIsWhitespace]
  · intro j hj
    obtain ⟨h1, h2⟩ := hj
    match j with
    | 0 => exact absurd h2 (by decide)
    | 1 => exact absurd h2 (by decide)
    | n + 2 =>
      have hlen : ("/**" : String).data.length = 3 := by decide
      rw [List.get?_eq_none.mpr (by omega)] at h2
      exact absurd h2 (by simp)

/-- C7 amended: `"/* missing"` fails with the `missing-terminator`
diagnostic anchored at offset 2 and the `Preprocess.Failed` value carrying
the source path, and an input in which every `/*` opener is followed by a
later `*/` closer never produces this failure; but an unterminated `/*` is
not always rejected (see the counterexample `"/**"`): the failure occurs
exactly when the comment-skip scan runs off the end of the input. -/
theorem c7_amended_missing_terminator (path : String)
    (p : Preprocessor) (hclosed : CommentsClosed p.content.data) :
    removeMultilineComment ⟨"/* missing", path⟩ =
      Except.error (PreprocessorError.Failed path 2) ∧
    ∃ q, removeMultilineComment p = Except.ok q := by
  constructor
  · simp [removeMultilineComment, rmMultiGo, skipMulti, skipMultiKept,
      rustIsWhitespace]
  · obtain ⟨res, hres⟩ := rmMultiGo_ok_of_closed p.content.data 0 hclosed
    exact ⟨{ p with content := String.mk res }, by
      unfold removeMultilineComment
      rw [hres]⟩

/-- Closed instantiation of the C7 amended theorem at path `"main.az"` and
the comment-free source `"ab"`. -/
theorem c7_amended_witness :
    removeMultilineComment ⟨"/* missing", "main.az"⟩ =
      Except.error (PreprocessorError.Failed "main.az" 2) ∧
    ∃ q, removeMultilineComment ⟨"ab", "main.az"⟩ = Except.ok q :=
  c7_amended_missing_terminator "main.az" ⟨"ab", "main.az"⟩
    (fun i hi => absurd (List.get?_mem hi.1) (by decide))

/-- C8 counterexample: the claim asserts that `EOF` at an operator position
makes `parse_expression` stop and return the accumulated expression as a
success.  `EOF` is absent from the operator `try_peek`'s accepted list, so
the unreachable `EOF => break` arm never fires and the parse fails with
`unexpected-token` instead. -/
theorem c8_counterexample_eof_fails :
    parseExpression [mkTok "1" TokenKind.NumLit, mkTok "" TokenKind.EOF]
      32 0 0 = PRes.fail := by
  rfl

/-- C8 amended: at an operator position, the five terminator kinds
`Semicolon`, `RSBracket`, `RParn`, `LBracket` and `RBracket` make the
expression loop stop and return the accumulated expression as a success
without consuming the terminator, while an `EOF` token there is rejected by
`try_peek` and produces `ParseFail`. -/
theorem c8_amended_terminators (tokens : List Token) (fuel minBp pos : Nat)
    (lhs : Expression) (t : Token) (ht : peekP tokens pos = some t) :
    (t.kind ∈
        [TokenKind.Semicolon, TokenKind.RSBracket, TokenKind.RParn,
         TokenKind.LBracket, TokenKind.RBracket] →
      parseExprLoop tokens (fuel + 1) minBp lhs pos =
        PRes.ok (some lhs) pos) ∧
    (t.kind = TokenKind.EOF →
      parseExprLoop tokens (fuel + 1) minBp lhs pos = PRes.fail) := by
  constructor
  · intro hmem
    simp only [List.mem_cons, List.not_mem_nil, or_false] at hmem
    rcases hmem with h | h | h | h | h <;>
      simp [parseExprLoop, tryPeek, ht, h, exprOpKind, exprPuncKind,
        PRes.andThen, getPostfixBindPower, getInfixBindPower]
  · intro heof
    simp [parseExprLoop, tryPeek, ht, heof, exprOpKind, exprPuncKind,
      PRes.andThen]

/-- Closed instantiation of the C8 amended theorem: a lone `;` after an
atom stops the loop successfully, a lone `EOF` there fails. -/
theorem c8_amended_witness :
    parseExprLoop [mkTok ";" TokenKind.Semicolon] 1 0
        (Expression.Atom (mkTok "1" TokenKind.NumLit)) 0 =
      PRes.ok (some (Expression.Atom (mkTok "1" TokenKind.NumLit))) 0 ∧
    parseExprLoop [mkTok "" TokenKind.EOF] 1 0
        (Expression.Atom (mkTok "1" TokenKind.NumLit)) 0 = PRes.fail :=
  ⟨(c8_amended_terminators [mkTok ";" TokenKind.Semicolon] 0 0 0
      (Expression.Atom (mkTok "1" TokenKind.NumLit))
      (mkTok ";" TokenKind.Semicolon) rfl).1 (by decide),
   (c8_amended_terminators [mkTok "" TokenKind.EOF] 0 0 0
      (Expression.Atom (mkTok "1" TokenKind.NumLit))
      (mkTok "" TokenKind.EOF) rfl).2 rfl⟩

/-- C9 counterexample: the claim asserts every successfully normalized
source is 7-bit ASCII.  `normalize_to_ascii` tests `char::is_alphanumeric`,
which is Unicode-aware, so the non-ASCII letter `é` (U+00E9) passes
unchanged. -/
theorem c9_counterexample_non_ascii_accepted :
    normalizeToAscii ⟨"é", "main.az"⟩ = Except.ok ⟨"é", "main.az"⟩ ∧
    ∃ c ∈ ("é" : String).data, rustIsAscii c = false := by
  refine ⟨rfl, ⟨'é', by decide, by decide⟩⟩

/-- C9 amended: `normalize_to_ascii` returns its input unchanged exactly
when every character is accepted — a valid control character,
Unicode-alphanumeric, Unicode-whitespace, or in the accepted punctuation
set — and otherwise fails with the `bad-character` diagnostic at the first
offending offset; success therefore does not confine the content to 7-bit
ASCII (Unicode alphanumerics such as `é` pass). -/
theorem c9_amended_normalize_iff (p : Preprocessor) :
    (normalizeToAscii p = Except.ok p ↔
      ∀ c ∈ p.content.data, acceptedChar c) ∧
    (∀ i c, findBadChar p.content.data 0 = some (i, c) →
      normalizeToAscii p = Except.error (PreprocessorError.Failed p.path i)) := by
  refine ⟨normalizeToAscii_ok_iff p, ?_⟩
  intro i c h
  unfold normalizeToAscii
  rw [h]

/-- Closed instantiation of the C9 amended theorem: an all-accepted source,
and a `bad-character` failure at the offset of `#`. -/
theorem c9_amended_witness :
    normalizeToAscii ⟨"let x;", "main.az"⟩ =
      Except.ok ⟨"let x;", "main.az"⟩ ∧
    normalizeToAscii ⟨"ab#", "main.az"⟩ =
      Except.error (PreprocessorError.Failed "main.az" 2) :=
  ⟨(c9_amended_normalize_iff ⟨"let x;", "main.az"⟩).1.mpr (by decide),
   (c9_amended_normalize_iff ⟨"ab#", "main.az"⟩).2 2 '#' (by decide)⟩

/-- C10: every parser primitive that reads the current token — `try_consume`,
`try_peek`, `optional_consume`, `optional_peek` and the list consumers —
unwraps `peek`'s `Option` and therefore panics whenever the cursor is not
strictly below the token-stream length; the lexer returns `Ok` with an
empty token vector for an empty or whitespace-only source, and
`Parser::parse` on that empty vector panics instead of returning a
`ParserError`. -/
theorem c10_primitives_crash_past_end :
    (∀ (tokens : List Token) (pos : Nat) (valid : List TokenKind),
      tokens.length ≤ pos → tryConsume tokens pos valid = PRes.crash) ∧
    (∀ (tokens : List Token) (pos : Nat) (valid : List TokenKind),
      tokens.length ≤ pos → tryPeek tokens pos valid = PRes.crash) ∧
    (∀ (tokens : List Token) (pos : Nat) (valid : List TokenKind),
      tokens.length ≤ pos → optionalConsume tokens pos valid = PRes.crash) ∧
    (∀ (tokens : List Token) (pos : Nat) (valid : List TokenKind),
      tokens.length ≤ pos → optionalPeek tokens pos valid = PRes.crash) ∧
    (∀ (tokens : List Token) (fuel pos : Nat) (valid : List TokenKind),
      tokens.length ≤ pos → tryConsumeList tokens fuel pos valid = PRes.crash) ∧
    (∀ (tokens : List Token) (fuel pos : Nat) (valid : List TokenKind),
      tokens.length ≤ pos →
        optionalConsumeList tokens fuel pos valid = PRes.crash) ∧
    (∀ (tokens : List Token) (fuel pos : Nat) (valid : List TokenKind),
      tokens.length ≤ pos →
        tryOptionalConsumeListWithSeps tokens fuel pos valid = PRes.crash) ∧
    (∀ fuel : Nat, lex "main.az" "" fuel = LexOut.ok []) ∧
    (∀ fuel : Nat, lex "main.az" " \n\t " fuel = LexOut.ok []) ∧
    (∀ fuel : Nat, parse [] (fuel + 1) = PRes.crash) := by
  have hpeek : ∀ (tokens : List Token) (pos : Nat), tokens.length ≤ pos →
      peekP tokens pos = none := by
    intro tokens pos h
    exact List.get?_eq_none.mpr h
  refine ⟨?_, ?_, ?_, ?_, ?_, ?_, ?_, ?_, ?_, ?_⟩
  · intro tokens pos valid h
    unfold tryConsume
    rw [hpeek tokens pos h]
  · intro tokens pos valid h
    unfold tryPeek
    rw [hpeek tokens pos h]
  · intro tokens pos valid h
    unfold optionalConsume
    rw [hpeek tokens pos h]
  · intro tokens pos valid h
    unfold optionalPeek
    rw [hpeek tokens pos h]
  · intro tokens fuel pos valid h
    unfold tryConsumeList
    rw [hpeek tokens pos h]
  · intro tokens fuel pos valid h
    unfold optionalConsumeList
    rw [hpeek tokens pos h]
  · intro tokens fuel pos valid h
    unfold tryOptionalConsumeListWithSeps
    rw [hpeek tokens pos h]
  · intro fuel
    rfl
  · intro fuel
    rfl
  · intro fuel
    rfl

/-- Closed instantiation of C10: every listed primitive crashes on the
empty token vector at cursor 0, and the whitespace-only pipeline
(`lex` then `parse`) panics. -/
theorem c10_witness :
    tryConsume [] 0 [TokenKind.Ident] = PRes.crash ∧
    tryPeek [] 0 [TokenKind.Ident] = PRes.crash ∧
    optionalConsume [] 0 [TokenKind.Ident] = PRes.crash ∧
    optionalPeek [] 0 [TokenKind.Ident] = PRes.crash ∧
    tryConsumeList [] 8 0 [TokenKind.Ident] = PRes.crash ∧
    optionalConsumeList [] 8 0 [TokenKind.Ident] = PRes.crash ∧
    tryOptionalConsumeListWithSeps [] 8 0 [TokenKind.Ident] = PRes.crash ∧
    lex "main.az" "" 8 = LexOut.ok [] ∧
    lex "main.az" " \n\t " 8 = LexOut.ok [] ∧
    parse [] 8 = PRes.crash :=
  ⟨c10_primitives_crash_past_end.1 [] 0 [TokenKind.Ident] (by decide),
   c10_primitives_crash_past_end.2.1 [] 0 [TokenKind.Ident] (by decide),
   c10_primitives_crash_past_end.2.2.1 [] 0 [TokenKind.Ident] (by decide),
   c10_primitives_crash_past_end.2.2.2.1 [] 0 [TokenKind.Ident] (by decide),
   c10_primitives_crash_past_end.2.2.2.2.1 [] 8 0 [TokenKind.Ident] (by decide),
   c10_primitives_crash_past_end.2.2.2.2.2.1 [] 8 0 [TokenKind.Ident]
     (by decide),
   c10_primitives_crash_past_end.2.2.2.2.2.2.1 [] 8 0 [TokenKind.Ident]
     (by decide),
   c10_primitives_crash_past_end.2.2.2.2.2.2.2.1 8,
   c10_primitives_crash_past_end.2.2.2.2.2.2.2.2.1 8,
   c10_primitives_crash_past_end.2.2.2.2.2.2.2.2.2 7⟩
